import Mathlib

/-!
# Grid cell traversal of `CellImpl.h`, and three helpers of the server

A shallow embedding of `Cell::Cell`, `Cell::CalculateCellArea`, `Cell::Visit` and
`Cell::VisitCircle` (src/server/game/Grids/Cells/CellImpl.h), followed by
`SocketMgr::SelectThreadWithMinConnections` (SocketMgr.h), `DatabaseLoader::Process`,
`DatabaseLoader::Load` and the open step (DatabaseLoader.cpp), and the record layout of
`DBCFileLoader` (DBCFileLoader.cpp).

* `uint32` values are natural numbers below `2 ^ 32`; every `uint32` addition and
  subtraction of the source is written with an explicit wrap (`u32add`, `u32sub`).
* `float` world coordinates and radii are rationals: the traversal only compares them
  and passes `x - radius`, `x + radius` on to `ComputeCellCoord`.
* the one `float` expression whose rounding decides which cells are visited, the
  `x_shift` of `VisitCircle`, is evaluated in IEEE-754 binary32 (round to nearest, ties
  to even, every operation rounded), see `x_shift_of`.
* `map.Visit(cell, visitor)` is the only effect: a traversal returns the sequence of
  cells handed to it, or `none` when a loop of the source never exits.
* `GridDefines.h` and `Cell.h` are not part of the sources at hand: their constants
  and the coordinate mapper are the fields of `GridDefs`, the small `CoordPair`,
  `CellArea` and `Cell` helpers are modelled from the specification and marked so.
* `DBCFileLoader.h` is not part of the sources either: the format characters `FT_...`
  are the fields of `FieldFormats`.
-/

set_option autoImplicit false

namespace TrinityCore

/-! ## Machine integers -/

/-- Number of values of a `uint32`. -/
def UINT32_MOD : Nat := 4294967296

/-- Wrapping `uint32` addition. -/
def u32add (a b : Nat) : Nat := (a + b) % UINT32_MOD

/-- Wrapping `uint32` subtraction. -/
def u32sub (a b : Nat) : Nat := (a + (UINT32_MOD - b % UINT32_MOD)) % UINT32_MOD

/-- Iterations after which a loop over a `uint32` counter with a fixed bound has either
exited or revisits a counter value it has already had, and so never exits. -/
def LOOP_FUEL : Nat := 4294967297

/-! ## Binary32 evaluation of the octagon shift -/

/-- Number of low-order bits of `p` that do not fit a 24-bit significand: the number
of halvings that bring `p` below `2 ^ 24`. -/
def excessBits : Nat → Nat → Nat
  | 0, _ => 0
  | fuel + 1, p => if p < 16777216 then 0 else excessBits fuel (p / 2) + 1

/-- Rounding of a natural number (a value in units of a fixed power of two) to 24
significant bits, to nearest with ties to even: the rounding of every binary32
operation in the normal range. Operands here stay below `2 ^ 57`. -/
def roundSig24 (p : Nat) : Nat :=
  let sh := excessBits 64 p
  let q := p / 2 ^ sh
  let r := p % 2 ^ sh
  let q := if 2 ^ sh < 2 * r ∨ (2 ^ sh = 2 * r ∧ q % 2 = 1) then q + 1 else q
  q * 2 ^ sh

/-- The expression `(uint32)ceilf(d * 0.3f - 0.5f)` of `VisitCircle` for the `uint32`
difference `d`. Values are kept in units of `2 ^ -25`: `0.3f` is `10066330` units and
`0.5f` is `16777216` units. `d` is converted to `float`, multiplied and the half
subtracted, each step rounded; a difference in `(-1, 0]` has ceiling zero. -/
def x_shift_of (d : Nat) : Nat :=
  let f := roundSig24 d
  let m := roundSig24 (f * 10066330)
  if m ≤ 16777216 then 0
  else (roundSig24 (m - 16777216) + 33554431) / 33554432

/-! ## Data model -/

/-- The type `CellCoord` (`CoordPair<TOTAL_NUMBER_OF_CELLS_PER_MAP>`): two `uint32`. -/
structure CellCoord where
  x_coord : Nat
  y_coord : Nat
deriving DecidableEq

/-- The declarations of `GridDefines.h` used by `CellImpl.h`; the header is not part
of the sources at hand, so its constants and its coordinate mapper are parameters.
`ComputeCellCoord` is `Trinity::ComputeCellCoord`, by the specification a
deterministic, side-effect-free conversion of a world position into grid units. -/
structure GridDefs where
  MAX_NUMBER_OF_CELLS : Nat
  TOTAL_NUMBER_OF_CELLS_PER_MAP : Nat
  SIZE_OF_GRIDS : ℚ
  ComputeCellCoord : ℚ → ℚ → CellCoord

/-- Modelled from the spec: `CoordPair::IsCoordValid` (GridDefines.h is missing), true
iff both axis components are within `[0, MapAxisCellCount)`. -/
def CellCoord.IsCoordValid (g : GridDefs) (p : CellCoord) : Bool :=
  decide (p.x_coord < g.TOTAL_NUMBER_OF_CELLS_PER_MAP) &&
    decide (p.y_coord < g.TOTAL_NUMBER_OF_CELLS_PER_MAP)

/-- Modelled from the spec: `CoordPair::normalize` (GridDefines.h is missing), which
clamps each component against the map extent. -/
def CellCoord.normalize (g : GridDefs) (p : CellCoord) : CellCoord :=
  { x_coord := min p.x_coord (g.TOTAL_NUMBER_OF_CELLS_PER_MAP - 1)
    y_coord := min p.y_coord (g.TOTAL_NUMBER_OF_CELLS_PER_MAP - 1) }

/-- The type `CellArea`: a low and a high bound. -/
structure CellArea where
  low_bound : CellCoord
  high_bound : CellCoord
deriving DecidableEq

/-- Modelled from the spec: `CellArea::operator!` (Cell.h is missing); an area is
degenerate when low bound == high bound. -/
def CellArea.isDegenerate (a : CellArea) : Bool :=
  decide (a.low_bound = a.high_bound)

/-- The fields `data.Part` of a `Cell`. Their bit widths are declared in `Cell.h`,
which is missing; each field holds the value assigned to it. -/
structure Cell where
  grid_x : Nat
  grid_y : Nat
  cell_x : Nat
  cell_y : Nat
  nocreate : Bool
deriving DecidableEq

/-- The constructor `Cell::Cell(CellCoord const& p)`: `data()` zero-initialises, then
the zone and intra-zone parts are stored. -/
def Cell.ofCellCoord (g : GridDefs) (p : CellCoord) : Cell :=
  { grid_x := p.x_coord / g.MAX_NUMBER_OF_CELLS
    grid_y := p.y_coord / g.MAX_NUMBER_OF_CELLS
    cell_x := p.x_coord % g.MAX_NUMBER_OF_CELLS
    cell_y := p.y_coord % g.MAX_NUMBER_OF_CELLS
    nocreate := false }

/-- Modelled from the spec: `Cell::SetNoCreate` (Cell.h is missing) raises the
transient no-create flag. -/
def Cell.SetNoCreate (c : Cell) : Cell :=
  { c with nocreate := true }

/-- Modelled from the spec: the coordinate a cell addresses (Cell.h is missing), zone
coordinate times cells per zone plus intra-zone coordinate, the inverse of the
packing done by the constructor. -/
def Cell.GetCellCoord (g : GridDefs) (c : Cell) : CellCoord :=
  { x_coord := c.grid_x * g.MAX_NUMBER_OF_CELLS + c.cell_x
    y_coord := c.grid_y * g.MAX_NUMBER_OF_CELLS + c.cell_y }

/-- The cell built inside the traversal loops: `Cell r_zone(cellCoord);` followed by
`r_zone.data.Part.nocreate = this->data.Part.nocreate;`. -/
def r_zone (g : GridDefs) (this : Cell) (cellCoord : CellCoord) : Cell :=
  { Cell.ofCellCoord g cellCoord with nocreate := this.nocreate }

/-! ## Loops -/

/-- The loop `for (uint32 v = lo; v <= hi; ++v) body(v)`, started at `v`. -/
def forUp (hi : Nat) (body : Nat → Option (List Cell)) : Nat → Nat → Option (List Cell)
  | 0, _ => none
  | fuel + 1, v =>
    if v ≤ hi then
      match body v, forUp hi body fuel (u32add v 1) with
      | some t, some r => some (t ++ r)
      | _, _ => none
    else some []

/-- The loop `for (uint32 v = hi; v >= lo; --v) body(v)`, started at `v`. -/
def forDown (lo : Nat) (body : Nat → Option (List Cell)) : Nat → Nat → Option (List Cell)
  | 0, _ => none
  | fuel + 1, v =>
    if lo ≤ v then
      match body v, forDown lo body fuel (u32sub v 1) with
      | some t, some r => some (t ++ r)
      | _, _ => none
    else some []

/-! ## The functions of `CellImpl.h` -/

/-- The function `Cell::CalculateCellArea(float x, float y, float radius)`. -/
def CalculateCellArea (g : GridDefs) (x y radius : ℚ) : CellArea :=
  if radius ≤ 0 then
    let center := (g.ComputeCellCoord x y).normalize g
    { low_bound := center, high_bound := center }
  else
    let centerX := (g.ComputeCellCoord (x - radius) (y - radius)).normalize g
    let centerY := (g.ComputeCellCoord (x + radius) (y + radius)).normalize g
    { low_bound := centerX, high_bound := centerY }

/-- The borders loop of `VisitCircle`:
`for (uint32 step = 1; step <= (x_start - begin_cell.x_coord); ++step)`, with the
running `y_start` and `y_end`; `bound` is `x_start - begin_cell.x_coord`. -/
def VisitCircle.borders (g : GridDefs) (this : Cell) (x_start x_end bound : Nat) :
    Nat → Nat → Nat → Nat → Option (List Cell)
  | 0, _, _, _ => none
  | fuel + 1, step, y_start, y_end =>
    if step ≤ bound then
      let y_end := u32add y_end 1
      let y_start := u32sub y_start 1
      match forDown y_end (fun y =>
              some [r_zone g this { x_coord := u32sub x_start step, y_coord := y },
                    r_zone g this { x_coord := u32add x_end step, y_coord := y }])
              LOOP_FUEL y_start,
            VisitCircle.borders g this x_start x_end bound fuel (u32add step 1) y_start y_end with
      | some t, some r => some (t ++ r)
      | _, _ => none
    else some []

/-- The function `Cell::VisitCircle(visitor, map, begin_cell, end_cell)`. -/
def VisitCircle (g : GridDefs) (this : Cell) (begin_cell end_cell : CellCoord) :
    Option (List Cell) :=
  let x_shift := x_shift_of (u32sub end_cell.x_coord begin_cell.x_coord)
  let x_start := u32add begin_cell.x_coord x_shift
  let x_end := u32sub end_cell.x_coord x_shift
  match forUp x_end (fun x =>
          forUp end_cell.y_coord (fun y => some [r_zone g this { x_coord := x, y_coord := y }])
            LOOP_FUEL begin_cell.y_coord)
          LOOP_FUEL x_start with
  | none => none
  | some strip =>
    if x_shift = 0 then some strip
    else
      match VisitCircle.borders g this x_start x_end (u32sub x_start begin_cell.x_coord)
              LOOP_FUEL 1 end_cell.y_coord begin_cell.y_coord with
      | none => none
      | some sides => some (strip ++ sides)

/-- The function `Cell::Visit(standing_cell, visitor, map, x_off, y_off, radius)`,
called on the cell `this`. -/
def Visit (g : GridDefs) (this : Cell) (standing_cell : CellCoord) (x_off y_off radius : ℚ) :
    Option (List Cell) :=
  if standing_cell.IsCoordValid g = false then some []
  else if radius ≤ 0 then some [this]
  else
    let radius := if radius > g.SIZE_OF_GRIDS then g.SIZE_OF_GRIDS else radius
    let area := CalculateCellArea g x_off y_off radius
    if area.isDegenerate then some [this]
    else if area.high_bound.x_coord > u32add area.low_bound.x_coord 4 ∧
        area.high_bound.y_coord > u32add area.low_bound.y_coord 4 then
      VisitCircle g this area.low_bound area.high_bound
    else
      match forUp area.high_bound.x_coord (fun x =>
              forUp area.high_bound.y_coord (fun y =>
                if ({ x_coord := x, y_coord := y } : CellCoord) ≠ standing_cell then
                  some [r_zone g this { x_coord := x, y_coord := y }]
                else some [])
                LOOP_FUEL area.low_bound.y_coord)
              LOOP_FUEL area.low_bound.x_coord with
      | none => none
      | some rest => some (this :: rest)

/-- The function `Cell::VisitGridObjects(x, y, map, visitor, radius, dont_load)`: the
point-centred entry, which builds the standing cell from the position. -/
def VisitGridObjects (g : GridDefs) (x y radius : ℚ) (dont_load : Bool) : Option (List Cell) :=
  let p := g.ComputeCellCoord x y
  let cell := Cell.ofCellCoord g p
  let cell := if dont_load then cell.SetNoCreate else cell
  Visit g cell p x y radius

/-! ## A sample grid -/

/-- The `uint32` a signed integer converts to. -/
def toUInt32 (i : Int) : Nat := (i % 4294967296).toNat

/-- A sample instance of the grid declarations, used to exhibit concrete runs: 8
cells per grid, 512 cells per map axis, cells one world unit wide with the map origin
at cell 0, grids 8 units wide. -/
def sampleGrid : GridDefs :=
  { MAX_NUMBER_OF_CELLS := 8
    TOTAL_NUMBER_OF_CELLS_PER_MAP := 512
    SIZE_OF_GRIDS := 8
    ComputeCellCoord := fun x y => { x_coord := toUInt32 ⌊x⌋, y_coord := toUInt32 ⌊y⌋ } }


/-! ## Closed forms of the traversals -/

/-- The cell coordinates of the central strip of the octagon with shift `s`, in the
order the strip loop produces them. -/
def stripCoords (begin_cell end_cell : CellCoord) (s : Nat) : List CellCoord :=
  (List.range' (begin_cell.x_coord + s)
      (end_cell.x_coord - s + 1 - (begin_cell.x_coord + s))).flatMap
    (fun x => (List.range' begin_cell.y_coord
      (end_cell.y_coord + 1 - begin_cell.y_coord)).map
        (fun y => ({ x_coord := x, y_coord := y } : CellCoord)))

/-- The cell coordinates of the two flank columns of step `k`: left then right cell
for `y` from `y_start` down to `y_end`. -/
def flankCoords (x_left x_right y_start y_end : Nat) : List CellCoord :=
  (List.range' y_end (y_start + 1 - y_end)).reverse.flatMap
    (fun y => [({ x_coord := x_left, y_coord := y } : CellCoord),
               { x_coord := x_right, y_coord := y }])

/-- The cell coordinates of the octagon borders with shift `s`: for each step `k` from
1 to `s` the flank columns `begin.x + s - k` and `end.x - s + k`, from
`end.y - k` (a wrapping subtraction) down to `begin.y + k`. -/
def sideCoords (begin_cell end_cell : CellCoord) (s : Nat) : List CellCoord :=
  (List.range' 1 s).flatMap
    (fun k => flankCoords (begin_cell.x_coord + s - k) (end_cell.x_coord - s + k)
      (u32sub end_cell.y_coord k) (begin_cell.y_coord + k))

/-- The cell coordinates of the octagon traversal of an area, in visiting order. -/
def circleCoords (begin_cell end_cell : CellCoord) : List CellCoord :=
  stripCoords begin_cell end_cell (x_shift_of (end_cell.x_coord - begin_cell.x_coord)) ++
    sideCoords begin_cell end_cell (x_shift_of (end_cell.x_coord - begin_cell.x_coord))

/-- The cell coordinates of the rectangle `[low.x, high.x] x [low.y, high.y]`, x-major. -/
def rectCoords (low high : CellCoord) : List CellCoord :=
  (List.range' low.x_coord (high.x_coord + 1 - low.x_coord)).flatMap
    (fun x => (List.range' low.y_coord (high.y_coord + 1 - low.y_coord)).map
      (fun y => ({ x_coord := x, y_coord := y } : CellCoord)))

/-- Membership of a coordinate in the rectangle spanned by two bounds. -/
def inRect (low high p : CellCoord) : Prop :=
  low.x_coord ≤ p.x_coord ∧ p.x_coord ≤ high.x_coord ∧
    low.y_coord ≤ p.y_coord ∧ p.y_coord ≤ high.y_coord

/-- The radius `Cell::Visit` works with after `if (radius > SIZE_OF_GRIDS)`. -/
def clampRadius (g : GridDefs) (radius : ℚ) : ℚ :=
  if radius > g.SIZE_OF_GRIDS then g.SIZE_OF_GRIDS else radius

/-- The test of `Cell::Visit` that selects `VisitCircle`, without wrap: the area
spans more than 4 cells in both axes. -/
def spansMoreThan4 (a : CellArea) : Prop :=
  a.high_bound.x_coord > a.low_bound.x_coord + 4 ∧
    a.high_bound.y_coord > a.low_bound.y_coord + 4

/-! ## Entity-centred entry points -/

/-- The accessors of a `WorldObject` that `CellImpl.h` calls (`Object.h` is not among the
analysed sources): `GetPositionX()`, `GetPositionY()` and `GetCombatReach()`. -/
structure WorldObject where
  GetPositionX : ℚ
  GetPositionY : ℚ
  GetCombatReach : ℚ

/-- The overload `Cell::Visit(standing_cell, visitor, map, WorldObject const& obj,
float radius)`, which forwards to the point-centred `Cell::Visit`. -/
def Visit_obj (g : GridDefs) (this : Cell) (standing_cell : CellCoord) (obj : WorldObject)
    (radius : ℚ) : Option (List Cell) :=
  Visit g this standing_cell obj.GetPositionX obj.GetPositionY (radius + obj.GetCombatReach)

/-- The overload `Cell::VisitGridObjects(WorldObject const* center_obj, visitor, radius,
dont_load)`: the entity-centred entry. -/
def VisitGridObjects_obj (g : GridDefs) (center_obj : WorldObject) (radius : ℚ)
    (dont_load : Bool) : Option (List Cell) :=
  let p := g.ComputeCellCoord center_obj.GetPositionX center_obj.GetPositionY
  let cell := Cell.ofCellCoord g p
  let cell := if dont_load then cell.SetNoCreate else cell
  Visit_obj g cell p center_obj radius

/-! ## The octagon as the specification words it -/

/-- The shift as the specification writes it, `ceil(width * 0.3 - 0.5)`, in exact
arithmetic. -/
def exact_x_shift (d : Nat) : Nat :=
  (⌈(d : ℚ) * (3 / 10) - 1 / 2⌉).toNat

/-- The set of cells the specification gives for the octagon with shift `s`: the
central strip `begin.x + s <= x <= end.x - s`, `begin.y <= y <= end.y`, together with,
for each step `k` from 1 to `s`, the columns `x = begin.x + s - k` and
`x = end.x - s + k` over `begin.y + k <= y <= end.y - k`. Subtractions are moved to the
other side, so that none is cut off at zero. -/
def inOctagon (begin_cell end_cell : CellCoord) (s : Nat) (p : CellCoord) : Prop :=
  (begin_cell.x_coord + s ≤ p.x_coord ∧ p.x_coord + s ≤ end_cell.x_coord ∧
      begin_cell.y_coord ≤ p.y_coord ∧ p.y_coord ≤ end_cell.y_coord) ∨
    ∃ k, 1 ≤ k ∧ k ≤ s ∧
      (p.x_coord + k = begin_cell.x_coord + s ∨ p.x_coord + s = end_cell.x_coord + k) ∧
        begin_cell.y_coord + k ≤ p.y_coord ∧ p.y_coord + k ≤ end_cell.y_coord

/-- Modelled from the spec: `Trinity::ComputeCellCoord` (GridDefines.h is missing)
"converts a world position into grid units using a fixed cell size". Each axis is
divided by the cell size, shifted by the position of the map origin, rounded to an
integer at most one unit away (as floor, truncation toward zero and rounding to nearest
do) and stored as a `uint32`. -/
def IsFixedCellMapper (g : GridDefs) : Prop :=
  ∃ (cellSize offset : ℚ) (rnd : ℚ → ℤ), 0 < cellSize ∧ (∀ t, |((rnd t : ℤ) : ℚ) - t| ≤ 1) ∧
    ∀ x y, g.ComputeCellCoord x y =
      { x_coord := toUInt32 (rnd (x / cellSize + offset))
        y_coord := toUInt32 (rnd (y / cellSize + offset)) }

/-- The order of the rectangle loop: `p` comes before `q` when its `x` is smaller, or
the `x` are equal and its `y` is smaller (x-major, then y). -/
def xMajorLt (p q : CellCoord) : Prop :=
  p.x_coord < q.x_coord ∨ (p.x_coord = q.x_coord ∧ p.y_coord < q.y_coord)

/-! ## `SocketMgr::SelectThreadWithMinConnections` (SocketMgr.h) -/

/-- The loop `for (int32 i = 1; i < _threadCount; ++i)` of
`SelectThreadWithMinConnections`, started at `i` with the running `min`. `counts` holds
`_threads[j].GetConnectionCount()` for each thread `j`, `_threadCount` is its length.
`_threadCount` is an `int32`, so there are fewer than `2 ^ 31` threads and neither `i`
nor `min` wraps. -/
def SelectThreadWithMinConnections.loop (counts : List Int) : Nat → Nat → Nat → Nat
  | 0, _, min => min
  | fuel + 1, i, min =>
    if i < counts.length then
      SelectThreadWithMinConnections.loop counts fuel (i + 1)
        (if counts.getD i 0 < counts.getD min 0 then i else min)
    else min

/-- The function `SocketMgr::SelectThreadWithMinConnections()`: `min = 0`, then the loop
from `i = 1`; at most `_threadCount` iterations. -/
def SelectThreadWithMinConnections (counts : List Int) : Nat :=
  SelectThreadWithMinConnections.loop counts counts.length 1 0

/-! ## `DatabaseLoader` (DatabaseLoader.cpp) -/

/-- What the loader does that can be observed: it calls a queued predicate, or it
invokes a close operation. -/
inductive LoaderEvent where
  | ran (id : Nat)
  | closed (id : Nat)
deriving DecidableEq

/-- A queued `Predicate` (`std::function<bool()>`): a call returns `result` and, while
it runs, pushes the close operations `registers` onto `_close`, in that order (the open
step pushes one when it succeeds). Each queued predicate is called at most once. -/
structure Predicate where
  id : Nat
  result : Bool
  registers : List Nat
deriving DecidableEq

/-- The mutable state `DatabaseLoader::Process` works on besides its queue: the stack
`_close` (top first) and the calls made so far. -/
structure LoaderState where
  _close : List Nat
  events : List LoaderEvent
deriving DecidableEq

/-- The inner loop of `Process`: `while (!_close.empty()) { _close.top()(); _close.pop(); }`,
on the stack and the calls made so far. -/
def DatabaseLoader.closeAll : List Nat → List LoaderEvent → LoaderState
  | [], ev => { _close := [], events := ev }
  | c :: rest, ev => DatabaseLoader.closeAll rest (ev ++ [LoaderEvent.closed c])

/-- The function `DatabaseLoader::Process(std::queue<Predicate>& queue)`: result, the
queue as it is left, and the state. The queue is a list with its front first. -/
def DatabaseLoader.Process : List Predicate → LoaderState → Bool × List Predicate × LoaderState
  | [], s => (true, [], s)
  | p :: rest, s =>
    let s1 : LoaderState :=
      { _close := p.registers.reverse ++ s._close
        events := s.events ++ [LoaderEvent.ran p.id] }
    if p.result = false then (false, p :: rest, DatabaseLoader.closeAll s1._close s1.events)
    else DatabaseLoader.Process rest s1

/-- The queues of a `DatabaseLoader`. -/
structure LoaderQueues where
  _open : List Predicate
  _populate : List Predicate
  _update : List Predicate
  _prepare : List Predicate
deriving DecidableEq

/-- The function `DatabaseLoader::Load()`: `OpenDatabases`, `PopulateDatabases`,
`UpdateDatabases`, `PrepareStatements`, each `Process` on its queue, stopping at the
first that returns false. -/
def DatabaseLoader.Load (q : LoaderQueues) (s : LoaderState) : Bool × LoaderQueues × LoaderState :=
  let r1 := DatabaseLoader.Process q._open s
  if r1.1 = false then (false, { q with _open := r1.2.1 }, r1.2.2)
  else
    let r2 := DatabaseLoader.Process q._populate r1.2.2
    if r2.1 = false then (false, { q with _open := r1.2.1, _populate := r2.2.1 }, r2.2.2)
    else
      let r3 := DatabaseLoader.Process q._update r2.2.2
      if r3.1 = false then
        (false, { q with _open := r1.2.1, _populate := r2.2.1, _update := r3.2.1 }, r3.2.2)
      else
        let r4 := DatabaseLoader.Process q._prepare r3.2.2
        (r4.1, { _open := r1.2.1, _populate := r2.2.1, _update := r3.2.1, _prepare := r4.2.1 },
          r4.2.2)

/-- The conversion `uint8(v)` of an `int32`. -/
def toUInt8 (v : Int) : Nat := (v % 256).toNat

/-- The configuration values the open step reads (`Config.h` is not among the analysed
sources): `<name>DatabaseInfo`, `<name>Database.WorkerThreads` and
`<name>Database.SynchThreads`, the last two as `GetIntDefault` returns them. -/
structure OpenConfig where
  DatabaseInfo : String
  WorkerThreads : Int
  SynchThreads : Int

/-- What the pool and the updater answer to the open step: the error of the first
`pool.Open()`, the result of `DBUpdater<T>::Create(pool)`, the error of the second
`pool.Open()`. -/
structure PoolAnswers where
  openError : Nat
  createOk : Bool
  reopenError : Nat

/-- The calls the open step makes on the pool and on `_close`. -/
inductive PoolCall where
  | SetConnectionInfo (info : String) (asyncThreads synchThreads : Nat)
  | Open
  | Create
  | pushClose
deriving DecidableEq

/-- The open step that `DatabaseLoader::AddDatabase` pushes onto `_open` (the lambda of
DatabaseLoader.cpp:38-90): its result and the calls it makes, in order. `ER_BAD_DB_ERROR`
is the constant of `mysqld_error.h`. -/
def DatabaseLoader.openStep (ER_BAD_DB_ERROR : Nat) (updatesEnabledForThis autoSetup : Bool)
    (cfg : OpenConfig) (pool : PoolAnswers) : Bool × List PoolCall :=
  if cfg.DatabaseInfo = "" then (false, [])
  else
    let asyncThreads := toUInt8 cfg.WorkerThreads
    if asyncThreads < 1 ∨ asyncThreads > 32 then (false, [])
    else
      let synchThreads := toUInt8 cfg.SynchThreads
      let calls := [PoolCall.SetConnectionInfo cfg.DatabaseInfo asyncThreads synchThreads,
        PoolCall.Open]
      if pool.openError ≠ 0 then
        if pool.openError = ER_BAD_DB_ERROR ∧ updatesEnabledForThis = true ∧ autoSetup = true then
          if pool.createOk = true then
            if pool.reopenError = 0 then
              (true, calls ++ [PoolCall.Create, PoolCall.Open, PoolCall.pushClose])
            else (false, calls ++ [PoolCall.Create, PoolCall.Open])
          else (false, calls ++ [PoolCall.Create])
        else (false, calls)
      else (true, calls ++ [PoolCall.pushClose])

/-! ## `DBCFileLoader` (DBCFileLoader.cpp) -/

/-- The field format characters `FT_NA`, ... of `DBCFileLoader.h`, which is not among
the analysed sources: the case labels of the three `switch` statements. -/
structure FieldFormats where
  FT_NA : Char
  FT_NA_BYTE : Char
  FT_STRING : Char
  FT_FLOAT : Char
  FT_INT : Char
  FT_BYTE : Char
  FT_SORT : Char
  FT_IND : Char
  FT_LOGIC : Char
deriving DecidableEq

/-- The case labels of the `switch` of `GetFormatRecordSize`, in its order. A C++
`switch` compiles only when its labels are pairwise different. -/
def FieldFormats.labels (F : FieldFormats) : List Char :=
  [F.FT_FLOAT, F.FT_INT, F.FT_STRING, F.FT_SORT, F.FT_IND, F.FT_BYTE, F.FT_NA, F.FT_NA_BYTE,
    F.FT_LOGIC]

/-- The format characters a record can be produced from: all but `FT_LOGIC`. -/
def FieldFormats.loadable (F : FieldFormats) : List Char :=
  [F.FT_FLOAT, F.FT_INT, F.FT_STRING, F.FT_SORT, F.FT_IND, F.FT_BYTE, F.FT_NA, F.FT_NA_BYTE]

/-- The characters that the comments at the case labels of `GetFormatRecordSize` give:
`f`, `i`, `s`, `d`, `n`, `b`, `x`, `X` and `l`. -/
def dbcFormats : FieldFormats :=
  { FT_NA := 'x', FT_NA_BYTE := 'X', FT_STRING := 's', FT_FLOAT := 'f', FT_INT := 'i',
    FT_BYTE := 'b', FT_SORT := 'd', FT_IND := 'n', FT_LOGIC := 'l' }

/-- The loop of `DBCFileLoader::GetFormatRecordSize` over the characters of `format`
left, with the running index `x`, `recordsize` (a `uint32`) and `i`; `none` where the
source aborts. `sizeof_ptr` is `sizeof(char*)`. -/
def DBCFileLoader.GetFormatRecordSize.loop (F : FieldFormats) (sizeof_ptr : Nat) :
    List Char → Nat → Nat → Int → Option (Nat × Int)
  | [], _, recordsize, i => some (recordsize, i)
  | c :: rest, x, recordsize, i =>
    if c = F.FT_FLOAT then
      DBCFileLoader.GetFormatRecordSize.loop F sizeof_ptr rest (x + 1) (u32add recordsize 4) i
    else if c = F.FT_INT then
      DBCFileLoader.GetFormatRecordSize.loop F sizeof_ptr rest (x + 1) (u32add recordsize 4) i
    else if c = F.FT_STRING then
      DBCFileLoader.GetFormatRecordSize.loop F sizeof_ptr rest (x + 1)
        (u32add recordsize sizeof_ptr) i
    else if c = F.FT_SORT then
      DBCFileLoader.GetFormatRecordSize.loop F sizeof_ptr rest (x + 1) recordsize (x : Int)
    else if c = F.FT_IND then
      DBCFileLoader.GetFormatRecordSize.loop F sizeof_ptr rest (x + 1) (u32add recordsize 4)
        (x : Int)
    else if c = F.FT_BYTE then
      DBCFileLoader.GetFormatRecordSize.loop F sizeof_ptr rest (x + 1) (u32add recordsize 1) i
    else if c = F.FT_NA ∨ c = F.FT_NA_BYTE then
      DBCFileLoader.GetFormatRecordSize.loop F sizeof_ptr rest (x + 1) recordsize i
    else none

/-- The function `DBCFileLoader::GetFormatRecordSize(format, index_pos)`: the record
size and the value stored to `*index_pos`. The format is the list of the characters
before the terminating NUL. -/
def DBCFileLoader.GetFormatRecordSize (F : FieldFormats) (sizeof_ptr : Nat)
    (format : List Char) : Option (Nat × Int) :=
  DBCFileLoader.GetFormatRecordSize.loop F sizeof_ptr format 0 0 (-1)

/-- What `AutoProduceData` does to the data table: the size it allocates, the offset it
stores for each record (`&dataTable[offset]`), the field writes as pairs of offset and
width, and the final offset. The values copied from the file do not enter any of them. -/
structure ProducedData where
  allocSize : Nat
  recordStarts : List Nat
  writes : List (Nat × Nat)
  offset : Nat
deriving DecidableEq

/-- The field loop of `AutoProduceData` (`for (uint32 x = 0; x < fieldCount; ++x)`) over
the characters of `format` left: the offset and the writes so far; `none` where the
source aborts. -/
def DBCFileLoader.AutoProduceData.fields (F : FieldFormats) (sizeof_ptr : Nat) :
    List Char → Nat → List (Nat × Nat) → Option (Nat × List (Nat × Nat))
  | [], offset, writes => some (offset, writes)
  | c :: rest, offset, writes =>
    if c = F.FT_FLOAT then
      DBCFileLoader.AutoProduceData.fields F sizeof_ptr rest (u32add offset 4)
        (writes ++ [(offset, 4)])
    else if c = F.FT_IND ∨ c = F.FT_INT then
      DBCFileLoader.AutoProduceData.fields F sizeof_ptr rest (u32add offset 4)
        (writes ++ [(offset, 4)])
    else if c = F.FT_BYTE then
      DBCFileLoader.AutoProduceData.fields F sizeof_ptr rest (u32add offset 1)
        (writes ++ [(offset, 1)])
    else if c = F.FT_STRING then
      DBCFileLoader.AutoProduceData.fields F sizeof_ptr rest (u32add offset sizeof_ptr)
        (writes ++ [(offset, sizeof_ptr)])
    else if c = F.FT_LOGIC then none
    else if c = F.FT_NA ∨ c = F.FT_NA_BYTE ∨ c = F.FT_SORT then
      DBCFileLoader.AutoProduceData.fields F sizeof_ptr rest offset writes
    else none

/-- The record loop of `AutoProduceData` (`for (uint32 y = 0; y < recordCount; ++y)`)
with the number of records left: the offset, the record starts stored to `indexTable`
and the writes so far. -/
def DBCFileLoader.AutoProduceData.records (F : FieldFormats) (sizeof_ptr : Nat)
    (format : List Char) :
    Nat → Nat → List Nat → List (Nat × Nat) → Option (Nat × List Nat × List (Nat × Nat))
  | 0, offset, starts, writes => some (offset, starts, writes)
  | n + 1, offset, starts, writes =>
    match DBCFileLoader.AutoProduceData.fields F sizeof_ptr format offset writes with
    | none => none
    | some (offset1, writes1) =>
      DBCFileLoader.AutoProduceData.records F sizeof_ptr format n offset1 (starts ++ [offset])
        writes1

/-- The function `DBCFileLoader::AutoProduceData(format, records, indexTable)` as far as
the data table goes: `none` where the source aborts, `some none` for `nullptr`. The
table is `new char[recordCount * recordsize]`, a product of two `uint32`. -/
def DBCFileLoader.AutoProduceData (F : FieldFormats) (sizeof_ptr : Nat) (format : List Char)
    (fieldCount recordCount : Nat) : Option (Option ProducedData) :=
  if format.length ≠ fieldCount then some none
  else
    match DBCFileLoader.GetFormatRecordSize F sizeof_ptr format with
    | none => none
    | some (recordsize, _) =>
      match DBCFileLoader.AutoProduceData.records F sizeof_ptr format recordCount 0 [] [] with
      | none => none
      | some (offset, starts, writes) =>
        some (some { allocSize := (recordCount * recordsize) % UINT32_MOD
                     recordStarts := starts
                     writes := writes
                     offset := offset })

/-- The field loop of `AutoProduceStrings` over the characters of `format` left: the
offset and the offsets of the string slots accessed so far; `none` where the source
aborts. -/
def DBCFileLoader.AutoProduceStrings.fields (F : FieldFormats) (sizeof_ptr : Nat) :
    List Char → Nat → List Nat → Option (Nat × List Nat)
  | [], offset, slots => some (offset, slots)
  | c :: rest, offset, slots =>
    if c = F.FT_FLOAT then
      DBCFileLoader.AutoProduceStrings.fields F sizeof_ptr rest (u32add offset 4) slots
    else if c = F.FT_IND ∨ c = F.FT_INT then
      DBCFileLoader.AutoProduceStrings.fields F sizeof_ptr rest (u32add offset 4) slots
    else if c = F.FT_BYTE then
      DBCFileLoader.AutoProduceStrings.fields F sizeof_ptr rest (u32add offset 1) slots
    else if c = F.FT_STRING then
      DBCFileLoader.AutoProduceStrings.fields F sizeof_ptr rest (u32add offset sizeof_ptr)
        (slots ++ [offset])
    else if c = F.FT_LOGIC then none
    else if c = F.FT_NA ∨ c = F.FT_NA_BYTE ∨ c = F.FT_SORT then
      DBCFileLoader.AutoProduceStrings.fields F sizeof_ptr rest offset slots
    else none

/-- The record loop of `AutoProduceStrings`, with the number of records left. -/
def DBCFileLoader.AutoProduceStrings.records (F : FieldFormats) (sizeof_ptr : Nat)
    (format : List Char) : Nat → Nat → List Nat → Option (Nat × List Nat)
  | 0, offset, slots => some (offset, slots)
  | n + 1, offset, slots =>
    match DBCFileLoader.AutoProduceStrings.fields F sizeof_ptr format offset slots with
    | none => none
    | some (offset1, slots1) =>
      DBCFileLoader.AutoProduceStrings.records F sizeof_ptr format n offset1 slots1

/-- The function `DBCFileLoader::AutoProduceStrings(format, dataTable)` as far as the
data table goes: the final offset and the offsets of the string slots it accesses, each
`sizeof(char*)` wide; `none` where the source aborts, `some none` for `nullptr`. -/
def DBCFileLoader.AutoProduceStrings (F : FieldFormats) (sizeof_ptr : Nat)
    (format : List Char) (fieldCount recordCount : Nat) : Option (Option (Nat × List Nat)) :=
  if format.length ≠ fieldCount then some none
  else
    match DBCFileLoader.AutoProduceStrings.records F sizeof_ptr format recordCount 0 [] with
    | none => none
    | some r => some (some r)

/-- The bytes one format character adds to a record, without wrap: the sizes
`sizeof(float)`, `sizeof(uint32)`, `sizeof(char*)` and `sizeof(uint8)` of the source. -/
def formatCharBytes (F : FieldFormats) (sizeof_ptr : Nat) (c : Char) : Nat :=
  if c = F.FT_FLOAT ∨ c = F.FT_INT ∨ c = F.FT_IND then 4
  else if c = F.FT_STRING then sizeof_ptr
  else if c = F.FT_BYTE then 1
  else 0

/-- The exact number of bytes of a record of the format, without wrap. -/
def formatBytes (F : FieldFormats) (sizeof_ptr : Nat) (format : List Char) : Nat :=
  (format.map (formatCharBytes F sizeof_ptr)).sum

/-! ## Machine arithmetic without wrap -/

theorem u32add_eq (a b : Nat) (h : a + b < UINT32_MOD) : u32add a b = a + b := by
  unfold u32add
  exact Nat.mod_eq_of_lt h

theorem u32sub_eq (a b : Nat) (hb : b ≤ a) (ha : a < UINT32_MOD) : u32sub a b = a - b := by
  unfold u32sub UINT32_MOD at *
  omega

theorem u32sub_lt (a b : Nat) : u32sub a b < UINT32_MOD := by
  unfold u32sub UINT32_MOD
  omega

theorem u32sub_succ (a j : Nat) : u32sub (u32sub a 1) j = u32sub a (j + 1) := by
  unfold u32sub UINT32_MOD
  omega

theorem u32sub_wrap (a b : Nat) (ha : a < b) (hb : b < UINT32_MOD) :
    u32sub a b = a + UINT32_MOD - b := by
  unfold u32sub UINT32_MOD at *
  omega

/-! ## Closed forms of the loops -/

theorem flatMap_congr_mem {α β : Type} (l : List α) (f h : α → List β)
    (hfh : ∀ a ∈ l, f a = h a) : l.flatMap f = l.flatMap h := by
  induction l with
  | nil => rfl
  | cons a t ih =>
    simp only [List.flatMap_cons]
    rw [hfh a (List.mem_cons_self a t), ih (fun b hb => hfh b (List.mem_cons_of_mem a hb))]

theorem forUp_some (hi : Nat) (f : Nat → List Cell) (hhi : hi + 1 < UINT32_MOD) :
    ∀ (fuel v : Nat), hi + 1 - v < fuel →
      forUp hi (fun i => some (f i)) fuel v = some ((List.range' v (hi + 1 - v)).flatMap f) := by
  intro fuel
  induction fuel with
  | zero => intro v h; omega
  | succ n ih =>
    intro v h
    unfold forUp
    by_cases hv : v ≤ hi
    · have h1 : u32add v 1 = v + 1 := u32add_eq v 1 (by omega)
      have h2 : hi + 1 - v = (hi + 1 - (v + 1)) + 1 := by omega
      rw [if_pos hv, h1, ih (v + 1) (by omega), h2, List.range'_succ]
      simp
    · have h2 : hi + 1 - v = 0 := by omega
      rw [if_neg hv, h2]
      simp

theorem forDown_some (lo : Nat) (f : Nat → List Cell) (hlo : 0 < lo) :
    ∀ (fuel v : Nat), v < UINT32_MOD → v + 1 - lo < fuel →
      forDown lo (fun i => some (f i)) fuel v =
        some ((List.range' lo (v + 1 - lo)).reverse.flatMap f) := by
  intro fuel
  induction fuel with
  | zero => intro v _ h; omega
  | succ n ih =>
    intro v hv h
    unfold forDown
    by_cases hl : lo ≤ v
    · have h1 : u32sub v 1 = v - 1 := u32sub_eq v 1 (by omega) hv
      have h2 : v + 1 - lo = (v - 1 + 1 - lo) + 1 := by omega
      have h3 : lo + (v - 1 + 1 - lo) = v := by omega
      rw [if_pos hl, h1, ih (v - 1) (by omega) (by omega), h2, List.range'_concat]
      simp [h3]
    · have h2 : v + 1 - lo = 0 := by omega
      rw [if_neg hl, h2]
      simp

theorem forUp_row (g : GridDefs) (this : Cell) (x lo hi : Nat) (hhi : hi + 1 < UINT32_MOD) :
    forUp hi (fun y => some [r_zone g this { x_coord := x, y_coord := y }]) LOOP_FUEL lo =
      some (((List.range' lo (hi + 1 - lo)).map
        (fun y => ({ x_coord := x, y_coord := y } : CellCoord))).map (r_zone g this)) := by
  rw [forUp_some hi _ hhi LOOP_FUEL lo (by unfold LOOP_FUEL; unfold UINT32_MOD at hhi; omega)]
  congr 1
  induction (List.range' lo (hi + 1 - lo)) with
  | nil => rfl
  | cons a t ih => simp [List.flatMap_cons, ih]

theorem forUp_strip (g : GridDefs) (this : Cell) (b e : CellCoord) (s : Nat)
    (hx : e.x_coord - s + 1 < UINT32_MOD) (hy : e.y_coord + 1 < UINT32_MOD) :
    forUp (e.x_coord - s) (fun x =>
        forUp e.y_coord (fun y => some [r_zone g this { x_coord := x, y_coord := y }])
          LOOP_FUEL b.y_coord) LOOP_FUEL (b.x_coord + s) =
      some ((stripCoords b e s).map (r_zone g this)) := by
  have hrow : (fun x => forUp e.y_coord
      (fun y => some [r_zone g this { x_coord := x, y_coord := y }]) LOOP_FUEL b.y_coord) =
      (fun x => some (((List.range' b.y_coord (e.y_coord + 1 - b.y_coord)).map
        (fun y => ({ x_coord := x, y_coord := y } : CellCoord))).map (r_zone g this))) := by
    funext x
    exact forUp_row g this x b.y_coord e.y_coord hy
  rw [hrow, forUp_some (e.x_coord - s) _ hx LOOP_FUEL (b.x_coord + s)
    (by unfold LOOP_FUEL; unfold UINT32_MOD at hx; omega)]
  unfold stripCoords
  rw [List.map_flatMap]

theorem forDown_flank (g : GridDefs) (this : Cell) (xl xr ys ye : Nat)
    (hye : 0 < ye) (hys : ys < UINT32_MOD) :
    forDown ye (fun y =>
        some [r_zone g this { x_coord := xl, y_coord := y },
              r_zone g this { x_coord := xr, y_coord := y }]) LOOP_FUEL ys =
      some ((flankCoords xl xr ys ye).map (r_zone g this)) := by
  rw [forDown_some ye _ hye LOOP_FUEL ys hys
    (by unfold LOOP_FUEL; unfold UINT32_MOD at hys; omega)]
  unfold flankCoords
  rw [List.map_flatMap]
  rfl

theorem borders_some (g : GridDefs) (this : Cell) (x_start x_end bound : Nat)
    (hb : bound + 1 < UINT32_MOD) (hxs : bound ≤ x_start) (hxe : x_end + bound < UINT32_MOD)
    (hxsm : x_start < UINT32_MOD) :
    ∀ (fuel step ys ye : Nat), 0 < step → bound + 1 - step < fuel → ys < UINT32_MOD →
      ye + (bound + 1 - step) < UINT32_MOD →
      VisitCircle.borders g this x_start x_end bound fuel step ys ye =
        some (((List.range' step (bound + 1 - step)).flatMap
          (fun k => flankCoords (x_start - k) (x_end + k)
            (u32sub ys (k + 1 - step)) (ye + (k + 1 - step)))).map (r_zone g this)) := by
  intro fuel
  induction fuel with
  | zero => intro step ys ye _ h; omega
  | succ n ih =>
    intro step ys ye hstep hfuel hys hye
    unfold VisitCircle.borders
    by_cases hs : step ≤ bound
    · have h1 : u32add ye 1 = ye + 1 := u32add_eq ye 1 (by omega)
      have h2 : u32add step 1 = step + 1 := u32add_eq step 1 (by omega)
      have h3 : u32sub x_start step = x_start - step := u32sub_eq x_start step (by omega) hxsm
      have h4 : u32add x_end step = x_end + step := u32add_eq x_end step (by omega)
      have h5 : bound + 1 - step = (bound + 1 - (step + 1)) + 1 := by omega
      rw [if_pos hs]
      simp only [h1, h2, h3, h4]
      rw [forDown_flank g this (x_start - step) (x_end + step) (u32sub ys 1) (ye + 1)
        (by omega) (u32sub_lt ys 1),
        ih (step + 1) (u32sub ys 1) (ye + 1) (by omega) (by omega) (u32sub_lt ys 1) (by omega)]
      simp only []
      rw [h5, List.range'_succ, List.flatMap_cons, List.map_append]
      have h6 : step + 1 - step = 1 := by omega
      rw [h6]
      have hfun : ((List.range' (step + 1) (bound + 1 - (step + 1))).flatMap fun k =>
            flankCoords (x_start - k) (x_end + k)
              (u32sub (u32sub ys 1) (k + 1 - (step + 1))) (ye + 1 + (k + 1 - (step + 1)))) =
          ((List.range' (step + 1) (bound + 1 - (step + 1))).flatMap fun k =>
            flankCoords (x_start - k) (x_end + k) (u32sub ys (k + 1 - step))
              (ye + (k + 1 - step))) := by
        apply flatMap_congr_mem
        intro k hk
        rw [List.mem_range'_1] at hk
        have h7 : k + 1 - step = (k + 1 - (step + 1)) + 1 := by omega
        have h8 : ye + 1 + (k + 1 - (step + 1)) = ye + (k + 1 - step) := by omega
        rw [u32sub_succ, ← h7, h8]
      rw [hfun]
    · have h5 : bound + 1 - step = 0 := by omega
      rw [if_neg hs, h5]
      rfl

theorem VisitCircle_eq (g : GridDefs) (this : Cell) (b e : CellCoord)
    (hbe : b.x_coord ≤ e.x_coord) (hex : e.x_coord + 1 < UINT32_MOD)
    (hey : e.y_coord + 1 < UINT32_MOD)
    (hs2 : 2 * x_shift_of (e.x_coord - b.x_coord) ≤ e.x_coord - b.x_coord)
    (hby : b.y_coord + x_shift_of (e.x_coord - b.x_coord) < UINT32_MOD) :
    VisitCircle g this b e = some ((circleCoords b e).map (r_zone g this)) := by
  have hd : u32sub e.x_coord b.x_coord = e.x_coord - b.x_coord :=
    u32sub_eq _ _ hbe (by omega)
  unfold VisitCircle circleCoords
  simp only [hd]
  generalize hs : x_shift_of (e.x_coord - b.x_coord) = s at *
  have h1 : u32add b.x_coord s = b.x_coord + s := u32add_eq _ _ (by omega)
  have h2 : u32sub e.x_coord s = e.x_coord - s := u32sub_eq _ _ (by omega) (by omega)
  have h3 : u32sub (b.x_coord + s) b.x_coord = s := by
    rw [u32sub_eq _ _ (by omega) (by omega)]; omega
  simp only [h1, h2, h3]
  rw [forUp_strip g this b e s (by omega) hey]
  simp only []
  by_cases h0 : s = 0
  · rw [if_pos h0]
    subst h0
    simp [sideCoords]
  · rw [if_neg h0, borders_some g this (b.x_coord + s) (e.x_coord - s) s (by omega) (by omega)
      (by omega) (by omega) LOOP_FUEL 1 e.y_coord b.y_coord (by omega)
      (by unfold LOOP_FUEL; unfold UINT32_MOD at hex; omega) (by omega) (by omega)]
    simp only []
    rw [List.map_append]
    have h4 : (List.range' 1 (s + 1 - 1)).flatMap (fun k =>
        flankCoords (b.x_coord + s - k) (e.x_coord - s + k) (u32sub e.y_coord (k + 1 - 1))
          (b.y_coord + (k + 1 - 1))) = sideCoords b e s := by
      unfold sideCoords
      simp only [Nat.add_sub_cancel]
    rw [h4]

/-! ## Bounds on the octagon shift -/

theorem excessBits_pow : ∀ (fuel p : Nat), 0 < excessBits fuel p →
    2 ^ excessBits fuel p * 8388608 ≤ p := by
  intro fuel
  induction fuel with
  | zero => intro p h; simp [excessBits] at h
  | succ n ih =>
    intro p h
    unfold excessBits at h ⊢
    by_cases hp : p < 16777216
    · rw [if_pos hp] at h; omega
    · rw [if_neg hp] at h ⊢
      by_cases h0 : 0 < excessBits n (p / 2)
      · have := ih (p / 2) h0
        rw [Nat.pow_succ]
        omega
      · have h1 : excessBits n (p / 2) = 0 := by omega
        rw [h1]
        omega

theorem roundSig24_bounds (p : Nat) :
    p * 8388607 ≤ roundSig24 p * 8388608 ∧ roundSig24 p * 8388608 ≤ p * 8388609 := by
  unfold roundSig24
  simp only []
  by_cases h0 : 0 < excessBits 64 p
  · have hpow := excessBits_pow 64 p h0
    have hX : 0 < 2 ^ excessBits 64 p := Nat.two_pow_pos _
    generalize 2 ^ excessBits 64 p = X at *
    have hdm := Nat.div_add_mod p X
    have hr := Nat.mod_lt p hX
    have hc : X * (p / X) = p / X * X := Nat.mul_comm _ _
    split
    · rw [Nat.add_mul]; omega
    · omega
  · have h1 : excessBits 64 p = 0 := by omega
    rw [h1]
    simp [Nat.mod_one]
    omega

theorem x_shift_of_double_le (d : Nat) : 2 * x_shift_of d ≤ d := by
  unfold x_shift_of
  simp only []
  have h1 := (roundSig24_bounds d).2
  have h2 := (roundSig24_bounds (roundSig24 d * 10066330)).2
  have h3 := (roundSig24_bounds (roundSig24 (roundSig24 d * 10066330) - 16777216)).2
  split
  · omega
  · omega

theorem x_shift_of_pos (d : Nat) (hd : 2 ≤ d) : 1 ≤ x_shift_of d := by
  unfold x_shift_of
  simp only []
  have h1 := (roundSig24_bounds d).1
  have h2 := (roundSig24_bounds (roundSig24 d * 10066330)).1
  have h3 := (roundSig24_bounds (roundSig24 (roundSig24 d * 10066330) - 16777216)).1
  split
  · omega
  · omega

/-- The shift for the widths 0 to 25. At width 25 the binary32 product `25 * 0.3f`
rounds up to `7.5000005`, so the shift is 8 where exact arithmetic gives 7. -/
theorem x_shift_of_table :
    (List.range 26).map x_shift_of =
      [0, 0, 1, 1, 1, 1, 2, 2, 2, 3, 3, 3, 4, 4, 4, 4, 5, 5, 5, 6, 6, 6, 7, 7, 7, 8] := by
  decide

/-! ## Cells and their coordinates -/

theorem GetCellCoord_ofCellCoord (g : GridDefs) (p : CellCoord) :
    (Cell.ofCellCoord g p).GetCellCoord g = p := by
  unfold Cell.GetCellCoord Cell.ofCellCoord
  cases p with
  | mk x y =>
    simp only [CellCoord.mk.injEq]
    exact ⟨by rw [Nat.mul_comm]; exact Nat.div_add_mod x _,
      by rw [Nat.mul_comm]; exact Nat.div_add_mod y _⟩

theorem GetCellCoord_r_zone (g : GridDefs) (this : Cell) (p : CellCoord) :
    (r_zone g this p).GetCellCoord g = p := by
  have h := GetCellCoord_ofCellCoord g p
  unfold r_zone
  unfold Cell.GetCellCoord at h ⊢
  exact h

theorem map_GetCellCoord_r_zone (g : GridDefs) (this : Cell) (l : List CellCoord) :
    (l.map (r_zone g this)).map (Cell.GetCellCoord g) = l := by
  induction l with
  | nil => rfl
  | cons a t ih =>
    simp only [List.map_cons, GetCellCoord_r_zone]
    rw [ih]

/-! ## Areas hold normalized coordinates -/

theorem normalize_lt (g : GridDefs) (p : CellCoord) (hT : 0 < g.TOTAL_NUMBER_OF_CELLS_PER_MAP) :
    (p.normalize g).x_coord < g.TOTAL_NUMBER_OF_CELLS_PER_MAP ∧
      (p.normalize g).y_coord < g.TOTAL_NUMBER_OF_CELLS_PER_MAP := by
  unfold CellCoord.normalize
  simp only []
  omega

theorem CalculateCellArea_lt (g : GridDefs) (x y r : ℚ)
    (hT : 0 < g.TOTAL_NUMBER_OF_CELLS_PER_MAP) :
    ((CalculateCellArea g x y r).low_bound.x_coord < g.TOTAL_NUMBER_OF_CELLS_PER_MAP ∧
      (CalculateCellArea g x y r).low_bound.y_coord < g.TOTAL_NUMBER_OF_CELLS_PER_MAP) ∧
    ((CalculateCellArea g x y r).high_bound.x_coord < g.TOTAL_NUMBER_OF_CELLS_PER_MAP ∧
      (CalculateCellArea g x y r).high_bound.y_coord < g.TOTAL_NUMBER_OF_CELLS_PER_MAP) := by
  unfold CalculateCellArea
  split
  · exact ⟨normalize_lt g _ hT, normalize_lt g _ hT⟩
  · exact ⟨normalize_lt g _ hT, normalize_lt g _ hT⟩

theorem IsCoordValid_iff (g : GridDefs) (p : CellCoord) :
    p.IsCoordValid g = true ↔
      p.x_coord < g.TOTAL_NUMBER_OF_CELLS_PER_MAP ∧ p.y_coord < g.TOTAL_NUMBER_OF_CELLS_PER_MAP := by
  unfold CellCoord.IsCoordValid
  simp

/-! ## Closed form of the rectangle loop -/

theorem forUp_rect_row (g : GridDefs) (this : Cell) (standing : CellCoord) (x lo hi : Nat)
    (hhi : hi + 1 < UINT32_MOD) :
    forUp hi (fun y =>
        if ({ x_coord := x, y_coord := y } : CellCoord) ≠ standing then
          some [r_zone g this { x_coord := x, y_coord := y }]
        else some []) LOOP_FUEL lo =
      some ((((List.range' lo (hi + 1 - lo)).map
        (fun y => ({ x_coord := x, y_coord := y } : CellCoord))).filter
          (fun p => decide (p ≠ standing))).map (r_zone g this)) := by
  have hbody : (fun y =>
        if ({ x_coord := x, y_coord := y } : CellCoord) ≠ standing then
          some [r_zone g this { x_coord := x, y_coord := y }]
        else some []) =
      (fun y => some (if ({ x_coord := x, y_coord := y } : CellCoord) ≠ standing then
          [r_zone g this { x_coord := x, y_coord := y }] else [])) := by
    funext y
    split <;> rfl
  rw [hbody, forUp_some hi _ hhi LOOP_FUEL lo
    (by unfold LOOP_FUEL; unfold UINT32_MOD at hhi; omega)]
  congr 1
  induction (List.range' lo (hi + 1 - lo)) with
  | nil => rfl
  | cons a t ih =>
    rw [List.flatMap_cons, ih, List.map_cons, List.filter_cons]
    by_cases hc : ({ x_coord := x, y_coord := a } : CellCoord) = standing
    · simp [hc]
    · simp [hc]

theorem forUp_rect (g : GridDefs) (this : Cell) (standing low high : CellCoord)
    (hx : high.x_coord + 1 < UINT32_MOD) (hy : high.y_coord + 1 < UINT32_MOD) :
    forUp high.x_coord (fun x =>
        forUp high.y_coord (fun y =>
          if ({ x_coord := x, y_coord := y } : CellCoord) ≠ standing then
            some [r_zone g this { x_coord := x, y_coord := y }]
          else some []) LOOP_FUEL low.y_coord) LOOP_FUEL low.x_coord =
      some (((rectCoords low high).filter (fun p => decide (p ≠ standing))).map
        (r_zone g this)) := by
  have hrow : (fun x =>
        forUp high.y_coord (fun y =>
          if ({ x_coord := x, y_coord := y } : CellCoord) ≠ standing then
            some [r_zone g this { x_coord := x, y_coord := y }]
          else some []) LOOP_FUEL low.y_coord) =
      (fun x => some ((((List.range' low.y_coord (high.y_coord + 1 - low.y_coord)).map
        (fun y => ({ x_coord := x, y_coord := y } : CellCoord))).filter
          (fun p => decide (p ≠ standing))).map (r_zone g this))) := by
    funext x
    exact forUp_rect_row g this standing x low.y_coord high.y_coord hy
  rw [hrow, forUp_some high.x_coord _ hx LOOP_FUEL low.x_coord
    (by unfold LOOP_FUEL; unfold UINT32_MOD at hx; omega)]
  unfold rectCoords
  congr 1
  induction (List.range' low.x_coord (high.x_coord + 1 - low.x_coord)) with
  | nil => rfl
  | cons a t ih =>
    rw [List.flatMap_cons, ih, List.flatMap_cons, List.filter_append, List.map_append]

/-! ## The branches of `Cell::Visit` -/

theorem Visit_of_valid_pos (g : GridDefs) (this : Cell) (standing : CellCoord) (x y r : ℚ)
    (hv : standing.IsCoordValid g = true) (hr : 0 < r) :
    Visit g this standing x y r =
      if (CalculateCellArea g x y (clampRadius g r)).isDegenerate then some [this]
      else if (CalculateCellArea g x y (clampRadius g r)).high_bound.x_coord >
            u32add (CalculateCellArea g x y (clampRadius g r)).low_bound.x_coord 4 ∧
          (CalculateCellArea g x y (clampRadius g r)).high_bound.y_coord >
            u32add (CalculateCellArea g x y (clampRadius g r)).low_bound.y_coord 4 then
        VisitCircle g this (CalculateCellArea g x y (clampRadius g r)).low_bound
          (CalculateCellArea g x y (clampRadius g r)).high_bound
      else
        match forUp (CalculateCellArea g x y (clampRadius g r)).high_bound.x_coord (fun cx =>
              forUp (CalculateCellArea g x y (clampRadius g r)).high_bound.y_coord (fun cy =>
                if ({ x_coord := cx, y_coord := cy } : CellCoord) ≠ standing then
                  some [r_zone g this { x_coord := cx, y_coord := cy }]
                else some [])
                LOOP_FUEL (CalculateCellArea g x y (clampRadius g r)).low_bound.y_coord)
              LOOP_FUEL (CalculateCellArea g x y (clampRadius g r)).low_bound.x_coord with
        | none => none
        | some rest => some (this :: rest) := by
  unfold Visit
  rw [if_neg (by rw [hv]; decide), if_neg (not_le.mpr hr)]
  rfl

theorem Visit_octagon (g : GridDefs) (this : Cell) (standing : CellCoord) (x y r : ℚ)
    (hT : g.TOTAL_NUMBER_OF_CELLS_PER_MAP ≤ 2147483648)
    (hv : standing.IsCoordValid g = true) (hr : 0 < r)
    (hd : (CalculateCellArea g x y (clampRadius g r)).isDegenerate = false)
    (h4 : spansMoreThan4 (CalculateCellArea g x y (clampRadius g r))) :
    Visit g this standing x y r =
      VisitCircle g this (CalculateCellArea g x y (clampRadius g r)).low_bound
        (CalculateCellArea g x y (clampRadius g r)).high_bound := by
  have hpos : 0 < g.TOTAL_NUMBER_OF_CELLS_PER_MAP := by
    have := (IsCoordValid_iff g standing).mp hv
    omega
  have hb := CalculateCellArea_lt g x y (clampRadius g r) hpos
  rw [Visit_of_valid_pos g this standing x y r hv hr, hd]
  unfold spansMoreThan4 at h4
  rw [u32add_eq _ 4 (by unfold UINT32_MOD; omega), u32add_eq _ 4 (by unfold UINT32_MOD; omega)]
  rw [if_neg (by decide), if_pos h4]

theorem Visit_rectangle (g : GridDefs) (this : Cell) (standing : CellCoord) (x y r : ℚ)
    (hT : g.TOTAL_NUMBER_OF_CELLS_PER_MAP ≤ 2147483648)
    (hv : standing.IsCoordValid g = true) (hr : 0 < r)
    (hd : (CalculateCellArea g x y (clampRadius g r)).isDegenerate = false)
    (h4 : ¬ spansMoreThan4 (CalculateCellArea g x y (clampRadius g r))) :
    Visit g this standing x y r =
      some (this :: ((rectCoords (CalculateCellArea g x y (clampRadius g r)).low_bound
        (CalculateCellArea g x y (clampRadius g r)).high_bound).filter
          (fun p => decide (p ≠ standing))).map (r_zone g this)) := by
  have hpos : 0 < g.TOTAL_NUMBER_OF_CELLS_PER_MAP := by
    have := (IsCoordValid_iff g standing).mp hv
    omega
  have hb := CalculateCellArea_lt g x y (clampRadius g r) hpos
  rw [Visit_of_valid_pos g this standing x y r hv hr, hd]
  unfold spansMoreThan4 at h4
  rw [u32add_eq _ 4 (by unfold UINT32_MOD; omega), u32add_eq _ 4 (by unfold UINT32_MOD; omega)]
  rw [if_neg (by decide), if_neg h4,
    forUp_rect g this standing _ _ (by unfold UINT32_MOD; omega) (by unfold UINT32_MOD; omega)]

/-! ## Evaluating the sample grid -/

theorem toUInt32_natCast (n : Nat) (hn : n < 4294967296) : toUInt32 (n : Int) = n := by
  unfold toUInt32
  omega

theorem sample_ComputeCellCoord (x y : ℚ) (n m : Nat)
    (hx1 : (n : ℚ) ≤ x) (hx2 : x < (n : ℚ) + 1) (hy1 : (m : ℚ) ≤ y) (hy2 : y < (m : ℚ) + 1)
    (hn : n < 4294967296) (hm : m < 4294967296) :
    sampleGrid.ComputeCellCoord x y = { x_coord := n, y_coord := m } := by
  have hfx : ⌊x⌋ = (n : Int) := Int.floor_eq_iff.mpr ⟨by exact_mod_cast hx1, by exact_mod_cast hx2⟩
  have hfy : ⌊y⌋ = (m : Int) := Int.floor_eq_iff.mpr ⟨by exact_mod_cast hy1, by exact_mod_cast hy2⟩
  show ({ x_coord := toUInt32 ⌊x⌋, y_coord := toUInt32 ⌊y⌋ } : CellCoord) = _
  rw [hfx, hfy, toUInt32_natCast n hn, toUInt32_natCast m hm]

theorem sample_clampRadius (r : ℚ) (hr : r ≤ 8) : clampRadius sampleGrid r = r := by
  unfold clampRadius
  rw [if_neg (by show ¬ (r > 8); exact not_lt.mpr hr)]

theorem sample_area (x y r : ℚ) (a b c d : Nat) (hr : 0 < r)
    (ha1 : (a : ℚ) ≤ x - r) (ha2 : x - r < (a : ℚ) + 1)
    (hb1 : (b : ℚ) ≤ y - r) (hb2 : y - r < (b : ℚ) + 1)
    (hc1 : (c : ℚ) ≤ x + r) (hc2 : x + r < (c : ℚ) + 1)
    (hd1 : (d : ℚ) ≤ y + r) (hd2 : y + r < (d : ℚ) + 1)
    (ha : a < 4294967296) (hb : b < 4294967296) (hc : c < 4294967296) (hd : d < 4294967296) :
    CalculateCellArea sampleGrid x y r =
      { low_bound := { x_coord := min a 511, y_coord := min b 511 }
        high_bound := { x_coord := min c 511, y_coord := min d 511 } } := by
  unfold CalculateCellArea
  rw [if_neg (not_le.mpr hr)]
  simp only []
  rw [sample_ComputeCellCoord (x - r) (y - r) a b ha1 ha2 hb1 hb2 ha hb,
    sample_ComputeCellCoord (x + r) (y + r) c d hc1 hc2 hd1 hd2 hc hd]
  rfl

theorem sample_area_100 :
    CalculateCellArea sampleGrid (201 / 2) (201 / 2) (clampRadius sampleGrid 2) =
      { low_bound := { x_coord := 98, y_coord := 98 }
        high_bound := { x_coord := 102, y_coord := 102 } } := by
  rw [sample_clampRadius 2 (by norm_num),
    sample_area (201 / 2) (201 / 2) 2 98 98 102 102 (by norm_num) (by norm_num) (by norm_num)
      (by norm_num) (by norm_num) (by norm_num) (by norm_num) (by norm_num) (by norm_num)
      (by norm_num) (by norm_num) (by norm_num) (by norm_num)]
  rfl

theorem sample_area_corner :
    CalculateCellArea sampleGrid (1023 / 2) (1023 / 2) (clampRadius sampleGrid 8) =
      { low_bound := { x_coord := 503, y_coord := 503 }
        high_bound := { x_coord := 511, y_coord := 511 } } := by
  rw [sample_clampRadius 8 (by norm_num),
    sample_area (1023 / 2) (1023 / 2) 8 503 503 519 519 (by norm_num) (by norm_num) (by norm_num)
      (by norm_num) (by norm_num) (by norm_num) (by norm_num) (by norm_num) (by norm_num)
      (by norm_num) (by norm_num) (by norm_num) (by norm_num)]
  rfl

theorem sample_area_300 :
    CalculateCellArea sampleGrid (601 / 2) (601 / 2) (clampRadius sampleGrid 8) =
      { low_bound := { x_coord := 292, y_coord := 292 }
        high_bound := { x_coord := 308, y_coord := 308 } } := by
  rw [sample_clampRadius 8 (by norm_num),
    sample_area (601 / 2) (601 / 2) 8 292 292 308 308 (by norm_num) (by norm_num) (by norm_num)
      (by norm_num) (by norm_num) (by norm_num) (by norm_num) (by norm_num) (by norm_num)
      (by norm_num) (by norm_num) (by norm_num) (by norm_num)]
  rfl

/-! ## Membership in the closed forms -/

theorem mem_rectCoords (low high p : CellCoord) :
    p ∈ rectCoords low high ↔ inRect low high p := by
  unfold rectCoords inRect
  cases p with
  | mk px py =>
    simp only [List.mem_flatMap, List.mem_map, List.mem_range'_1, CellCoord.mk.injEq]
    constructor
    · rintro ⟨x, hx, y, hy, rfl, rfl⟩
      omega
    · intro h
      exact ⟨px, by omega, py, by omega, rfl, rfl⟩

theorem mem_stripCoords (b e p : CellCoord) (s : Nat) :
    p ∈ stripCoords b e s ↔
      b.x_coord + s ≤ p.x_coord ∧ p.x_coord + s ≤ e.x_coord ∧
        b.y_coord ≤ p.y_coord ∧ p.y_coord ≤ e.y_coord := by
  unfold stripCoords
  cases p with
  | mk px py =>
    simp only [List.mem_flatMap, List.mem_map, List.mem_range'_1, CellCoord.mk.injEq]
    constructor
    · rintro ⟨x, hx, y, hy, rfl, rfl⟩
      omega
    · intro h
      exact ⟨px, by omega, py, by omega, rfl, rfl⟩

theorem mem_flankCoords (xl xr ys ye : Nat) (p : CellCoord) :
    p ∈ flankCoords xl xr ys ye ↔
      (p.x_coord = xl ∨ p.x_coord = xr) ∧ ye ≤ p.y_coord ∧ p.y_coord ≤ ys := by
  unfold flankCoords
  cases p with
  | mk px py =>
    simp only [List.mem_flatMap, List.mem_reverse, List.mem_range'_1, List.mem_cons,
      CellCoord.mk.injEq, List.mem_singleton, List.not_mem_nil, or_false]
    constructor
    · rintro ⟨y, hy, h | h⟩
      · obtain ⟨rfl, rfl⟩ := h
        exact ⟨Or.inl rfl, by omega, by omega⟩
      · obtain ⟨rfl, rfl⟩ := h
        exact ⟨Or.inr rfl, by omega, by omega⟩
    · rintro ⟨h | h, h1, h2⟩
      · exact ⟨py, by omega, Or.inl ⟨h, rfl⟩⟩
      · exact ⟨py, by omega, Or.inr ⟨h, rfl⟩⟩

theorem mem_sideCoords (b e p : CellCoord) (s : Nat) :
    p ∈ sideCoords b e s ↔
      ∃ k, 1 ≤ k ∧ k ≤ s ∧
        (p.x_coord = b.x_coord + s - k ∨ p.x_coord = e.x_coord - s + k) ∧
          b.y_coord + k ≤ p.y_coord ∧ p.y_coord ≤ u32sub e.y_coord k := by
  unfold sideCoords
  simp only [List.mem_flatMap, List.mem_range'_1, mem_flankCoords]
  constructor
  · rintro ⟨k, hk, h⟩
    exact ⟨k, by omega, by omega, h⟩
  · rintro ⟨k, h1, h2, h⟩
    exact ⟨k, by omega, h⟩

theorem nodup_rectCoords (low high : CellCoord) : (rectCoords low high).Nodup := by
  unfold rectCoords
  rw [List.nodup_flatMap]
  constructor
  · intro x _
    apply List.Nodup.map _ (List.nodup_range' _ _)
    intro y y' h
    simpa using h
  · apply List.Pairwise.imp _ (List.nodup_range' low.x_coord (high.x_coord + 1 - low.x_coord))
    intro x x' hne
    show List.Disjoint _ _
    intro p hp hp'
    simp only [List.mem_map] at hp hp'
    obtain ⟨y, _, rfl⟩ := hp
    obtain ⟨y', _, h⟩ := hp'
    simp only [CellCoord.mk.injEq] at h
    exact hne h.1.symm

/-- The octagon traversal of an area of valid coordinates on a map of at most `2 ^ 31`
cells per axis returns, with the cells of `circleCoords`. -/
theorem VisitCircle_valid (g : GridDefs) (this : Cell) (b e : CellCoord)
    (hT : g.TOTAL_NUMBER_OF_CELLS_PER_MAP ≤ 2147483648)
    (hb : b.IsCoordValid g = true) (he : e.IsCoordValid g = true)
    (hx : b.x_coord ≤ e.x_coord) :
    VisitCircle g this b e = some ((circleCoords b e).map (r_zone g this)) := by
  have hb2 := (IsCoordValid_iff g b).mp hb
  have he2 := (IsCoordValid_iff g e).mp he
  have hs := x_shift_of_double_le (e.x_coord - b.x_coord)
  exact VisitCircle_eq g this b e hx (by unfold UINT32_MOD; omega) (by unfold UINT32_MOD; omega)
    hs (by unfold UINT32_MOD; omega)

/-! ## A property of every visited cell -/

theorem forUp_forall (P : Cell → Prop) (hi : Nat) (body : Nat → Option (List Cell))
    (hbody : ∀ v t, body v = some t → ∀ c ∈ t, P c) :
    ∀ (fuel v : Nat) (t : List Cell), forUp hi body fuel v = some t → ∀ c ∈ t, P c := by
  intro fuel
  induction fuel with
  | zero => intro v t h; simp [forUp] at h
  | succ n ih =>
    intro v t h c hc
    unfold forUp at h
    by_cases hv : v ≤ hi
    · rw [if_pos hv] at h
      cases hb : body v with
      | none => rw [hb] at h; simp at h
      | some tb =>
        cases hr : forUp hi body n (u32add v 1) with
        | none => rw [hb, hr] at h; simp at h
        | some tr =>
          rw [hb, hr] at h
          simp only [Option.some.injEq] at h
          subst h
          rcases List.mem_append.mp hc with h1 | h1
          · exact hbody v tb hb c h1
          · exact ih (u32add v 1) tr hr c h1
    · rw [if_neg hv] at h
      simp only [Option.some.injEq] at h
      subst h
      simp at hc

theorem forDown_forall (P : Cell → Prop) (lo : Nat) (body : Nat → Option (List Cell))
    (hbody : ∀ v t, body v = some t → ∀ c ∈ t, P c) :
    ∀ (fuel v : Nat) (t : List Cell), forDown lo body fuel v = some t → ∀ c ∈ t, P c := by
  intro fuel
  induction fuel with
  | zero => intro v t h; simp [forDown] at h
  | succ n ih =>
    intro v t h c hc
    unfold forDown at h
    by_cases hv : lo ≤ v
    · rw [if_pos hv] at h
      cases hb : body v with
      | none => rw [hb] at h; simp at h
      | some tb =>
        cases hr : forDown lo body n (u32sub v 1) with
        | none => rw [hb, hr] at h; simp at h
        | some tr =>
          rw [hb, hr] at h
          simp only [Option.some.injEq] at h
          subst h
          rcases List.mem_append.mp hc with h1 | h1
          · exact hbody v tb hb c h1
          · exact ih (u32sub v 1) tr hr c h1
    · rw [if_neg hv] at h
      simp only [Option.some.injEq] at h
      subst h
      simp at hc

theorem borders_forall (P : Cell → Prop) (g : GridDefs) (this : Cell)
    (x_start x_end bound : Nat) (hP : ∀ p, P (r_zone g this p)) :
    ∀ (fuel step ys ye : Nat) (t : List Cell),
      VisitCircle.borders g this x_start x_end bound fuel step ys ye = some t →
        ∀ c ∈ t, P c := by
  intro fuel
  induction fuel with
  | zero => intro step ys ye t h; simp [VisitCircle.borders] at h
  | succ n ih =>
    intro step ys ye t h c hc
    unfold VisitCircle.borders at h
    by_cases hv : step ≤ bound
    · rw [if_pos hv] at h
      simp only [] at h
      cases hb : forDown (u32add ye 1) (fun y =>
          some [r_zone g this { x_coord := u32sub x_start step, y_coord := y },
                r_zone g this { x_coord := u32add x_end step, y_coord := y }])
          LOOP_FUEL (u32sub ys 1) with
      | none => rw [hb] at h; simp at h
      | some tb =>
        cases hr : VisitCircle.borders g this x_start x_end bound n (u32add step 1)
            (u32sub ys 1) (u32add ye 1) with
        | none => rw [hb, hr] at h; simp at h
        | some tr =>
          rw [hb, hr] at h
          simp only [Option.some.injEq] at h
          subst h
          rcases List.mem_append.mp hc with h1 | h1
          · refine forDown_forall P _ _ ?_ _ _ tb hb c h1
            intro v t ht c hc
            simp only [Option.some.injEq] at ht
            subst ht
            simp only [List.mem_cons, List.mem_singleton, List.not_mem_nil, or_false] at hc
            rcases hc with rfl | rfl
            · exact hP _
            · exact hP _
          · exact ih _ _ _ tr hr c h1
    · rw [if_neg hv] at h
      simp only [Option.some.injEq] at h
      subst h
      simp at hc

theorem VisitCircle_forall (P : Cell → Prop) (g : GridDefs) (this : Cell) (b e : CellCoord)
    (hP : ∀ p, P (r_zone g this p)) (t : List Cell) (h : VisitCircle g this b e = some t) :
    ∀ c ∈ t, P c := by
  unfold VisitCircle at h
  simp only [] at h
  have hstrip : ∀ ts, forUp (u32sub e.x_coord (x_shift_of (u32sub e.x_coord b.x_coord)))
      (fun x => forUp e.y_coord
        (fun y => some [r_zone g this { x_coord := x, y_coord := y }]) LOOP_FUEL b.y_coord)
      LOOP_FUEL (u32add b.x_coord (x_shift_of (u32sub e.x_coord b.x_coord))) = some ts →
      ∀ c ∈ ts, P c := by
    intro ts hts
    refine forUp_forall P _ _ ?_ _ _ ts hts
    intro x tx htx
    refine forUp_forall P _ _ ?_ _ _ tx htx
    intro y ty hty c hc
    simp only [Option.some.injEq] at hty
    subst hty
    simp only [List.mem_singleton] at hc
    subst hc
    exact hP _
  cases hs : forUp (u32sub e.x_coord (x_shift_of (u32sub e.x_coord b.x_coord)))
      (fun x => forUp e.y_coord
        (fun y => some [r_zone g this { x_coord := x, y_coord := y }]) LOOP_FUEL b.y_coord)
      LOOP_FUEL (u32add b.x_coord (x_shift_of (u32sub e.x_coord b.x_coord))) with
  | none => rw [hs] at h; simp at h
  | some ts =>
    rw [hs] at h
    simp only [] at h
    by_cases h0 : x_shift_of (u32sub e.x_coord b.x_coord) = 0
    · rw [if_pos h0] at h
      simp only [Option.some.injEq] at h
      subst h
      exact hstrip ts hs
    · rw [if_neg h0] at h
      cases hb : VisitCircle.borders g this
          (u32add b.x_coord (x_shift_of (u32sub e.x_coord b.x_coord)))
          (u32sub e.x_coord (x_shift_of (u32sub e.x_coord b.x_coord)))
          (u32sub (u32add b.x_coord (x_shift_of (u32sub e.x_coord b.x_coord))) b.x_coord)
          LOOP_FUEL 1 e.y_coord b.y_coord with
      | none => rw [hb] at h; simp at h
      | some tb =>
        rw [hb] at h
        simp only [Option.some.injEq] at h
        subst h
        intro c hc
        rcases List.mem_append.mp hc with h1 | h1
        · exact hstrip ts hs c h1
        · exact borders_forall P g this _ _ _ hP _ _ _ _ tb hb c h1

theorem Visit_forall (P : Cell → Prop) (g : GridDefs) (this : Cell) (standing : CellCoord)
    (x y r : ℚ) (hthis : P this) (hP : ∀ p, P (r_zone g this p)) (t : List Cell)
    (h : Visit g this standing x y r = some t) : ∀ c ∈ t, P c := by
  have hone : ∀ t : List Cell, some [this] = some t → ∀ c ∈ t, P c := by
    intro t ht c hc
    simp only [Option.some.injEq] at ht
    subst ht
    simp only [List.mem_singleton] at hc
    subst hc
    exact hthis
  by_cases hv : standing.IsCoordValid g = true
  · by_cases hr : r ≤ 0
    · unfold Visit at h
      rw [if_neg (by rw [hv]; decide), if_pos hr] at h
      exact hone t h
    · rw [Visit_of_valid_pos g this standing x y r hv (not_le.mp hr)] at h
      by_cases hd : (CalculateCellArea g x y (clampRadius g r)).isDegenerate = true
      · rw [if_pos hd] at h
        exact hone t h
      · rw [if_neg hd] at h
        by_cases h4 : (CalculateCellArea g x y (clampRadius g r)).high_bound.x_coord >
              u32add (CalculateCellArea g x y (clampRadius g r)).low_bound.x_coord 4 ∧
            (CalculateCellArea g x y (clampRadius g r)).high_bound.y_coord >
              u32add (CalculateCellArea g x y (clampRadius g r)).low_bound.y_coord 4
        · rw [if_pos h4] at h
          exact VisitCircle_forall P g this _ _ hP t h
        · rw [if_neg h4] at h
          cases hrest : forUp (CalculateCellArea g x y (clampRadius g r)).high_bound.x_coord
              (fun cx =>
                forUp (CalculateCellArea g x y (clampRadius g r)).high_bound.y_coord (fun cy =>
                  if ({ x_coord := cx, y_coord := cy } : CellCoord) ≠ standing then
                    some [r_zone g this { x_coord := cx, y_coord := cy }]
                  else some [])
                  LOOP_FUEL (CalculateCellArea g x y (clampRadius g r)).low_bound.y_coord)
              LOOP_FUEL (CalculateCellArea g x y (clampRadius g r)).low_bound.x_coord with
          | none => rw [hrest] at h; simp at h
          | some rest =>
            rw [hrest] at h
            simp only [Option.some.injEq] at h
            subst h
            intro c hc
            rcases List.mem_cons.mp hc with h1 | h1
            · subst h1; exact hthis
            · refine forUp_forall P _ _ ?_ _ _ rest hrest c h1
              intro cx tx htx
              refine forUp_forall P _ _ ?_ _ _ tx htx
              intro cy ty hty c hc
              by_cases hne : ({ x_coord := cx, y_coord := cy } : CellCoord) ≠ standing
              · rw [if_pos hne] at hty
                simp only [Option.some.injEq] at hty
                subst hty
                simp only [List.mem_singleton] at hc
                subst hc
                exact hP _
              · rw [if_neg hne] at hty
                simp only [Option.some.injEq] at hty
                subst hty
                simp at hc
  · unfold Visit at h
    rw [if_pos (by simpa using hv)] at h
    simp only [Option.some.injEq] at h
    subst h
    simp

/-! ## `Cell::Visit` returns -/

theorem CalculateCellArea_valid (g : GridDefs) (x y r : ℚ)
    (hT : 0 < g.TOTAL_NUMBER_OF_CELLS_PER_MAP) :
    (CalculateCellArea g x y r).low_bound.IsCoordValid g = true ∧
      (CalculateCellArea g x y r).high_bound.IsCoordValid g = true := by
  have h := CalculateCellArea_lt g x y r hT
  exact ⟨(IsCoordValid_iff g _).mpr h.1, (IsCoordValid_iff g _).mpr h.2⟩

theorem Visit_octagon_closed (g : GridDefs) (this : Cell) (standing : CellCoord) (x y r : ℚ)
    (hT : g.TOTAL_NUMBER_OF_CELLS_PER_MAP ≤ 2147483648)
    (hv : standing.IsCoordValid g = true) (hr : 0 < r)
    (hd : (CalculateCellArea g x y (clampRadius g r)).isDegenerate = false)
    (h4 : spansMoreThan4 (CalculateCellArea g x y (clampRadius g r))) :
    Visit g this standing x y r =
      some ((circleCoords (CalculateCellArea g x y (clampRadius g r)).low_bound
        (CalculateCellArea g x y (clampRadius g r)).high_bound).map (r_zone g this)) := by
  have hpos : 0 < g.TOTAL_NUMBER_OF_CELLS_PER_MAP := by
    have := (IsCoordValid_iff g standing).mp hv
    omega
  have hval := CalculateCellArea_valid g x y (clampRadius g r) hpos
  rw [Visit_octagon g this standing x y r hT hv hr hd h4]
  exact VisitCircle_valid g this _ _ hT hval.1 hval.2 (by unfold spansMoreThan4 at h4; omega)

/-! ## Lengths of the closed forms -/

theorem length_flatMap_const {α β : Type} (l : List α) (f : α → List β) (n : Nat)
    (h : ∀ a ∈ l, (f a).length = n) : (l.flatMap f).length = l.length * n := by
  induction l with
  | nil => simp
  | cons a t ih =>
    rw [List.flatMap_cons, List.length_append, h a (List.mem_cons_self a t),
      ih (fun b hb => h b (List.mem_cons_of_mem a hb)), List.length_cons, Nat.succ_mul]
    omega

theorem length_flatMap_le {α β : Type} (l : List α) (f : α → List β) (n : Nat)
    (h : ∀ a ∈ l, (f a).length ≤ n) : (l.flatMap f).length ≤ l.length * n := by
  induction l with
  | nil => simp
  | cons a t ih =>
    have h1 := h a (List.mem_cons_self a t)
    have h2 := ih (fun b hb => h b (List.mem_cons_of_mem a hb))
    rw [List.flatMap_cons, List.length_append, List.length_cons, Nat.succ_mul]
    omega

theorem length_le_flatMap {α β : Type} (l : List α) (f : α → List β) (a : α) (ha : a ∈ l) :
    (f a).length ≤ (l.flatMap f).length := by
  induction l with
  | nil => simp at ha
  | cons b t ih =>
    rw [List.flatMap_cons, List.length_append]
    rcases List.mem_cons.mp ha with h | h
    · subst h; omega
    · have := ih h; omega

theorem length_rectCoords (low high : CellCoord) :
    (rectCoords low high).length =
      (high.x_coord + 1 - low.x_coord) * (high.y_coord + 1 - low.y_coord) := by
  unfold rectCoords
  rw [length_flatMap_const _ _ (high.y_coord + 1 - low.y_coord) (by intro a _; simp)]
  simp

theorem length_stripCoords (b e : CellCoord) (s : Nat) :
    (stripCoords b e s).length =
      (e.x_coord - s + 1 - (b.x_coord + s)) * (e.y_coord + 1 - b.y_coord) := by
  unfold stripCoords
  rw [length_flatMap_const _ _ (e.y_coord + 1 - b.y_coord) (by intro a _; simp)]
  simp

theorem length_flankCoords (xl xr ys ye : Nat) :
    (flankCoords xl xr ys ye).length = (ys + 1 - ye) * 2 := by
  unfold flankCoords
  rw [length_flatMap_const _ _ 2 (by intro a _; rfl)]
  simp

theorem length_sideCoords_le (b e : CellCoord) (s : Nat) (hs : s ≤ e.y_coord)
    (hey : e.y_coord < UINT32_MOD) :
    (sideCoords b e s).length ≤ s * ((e.y_coord + 1 - b.y_coord) * 2) := by
  unfold sideCoords
  have h := length_flatMap_le (List.range' 1 s)
    (fun k => flankCoords (b.x_coord + s - k) (e.x_coord - s + k)
      (u32sub e.y_coord k) (b.y_coord + k)) ((e.y_coord + 1 - b.y_coord) * 2) (by
      intro k hk
      rw [List.mem_range'_1] at hk
      rw [length_flankCoords, u32sub_eq _ _ (by omega) hey]
      apply Nat.mul_le_mul_right
      omega)
  rw [List.length_range'] at h
  exact h

theorem length_circleCoords_le (b e : CellCoord) (hx : b.x_coord ≤ e.x_coord)
    (hs : x_shift_of (e.x_coord - b.x_coord) ≤ e.y_coord) (hey : e.y_coord < UINT32_MOD) :
    (circleCoords b e).length ≤
      (e.x_coord - b.x_coord + 1) * (e.y_coord - b.y_coord + 1) := by
  have h2s := x_shift_of_double_le (e.x_coord - b.x_coord)
  unfold circleCoords
  rw [List.length_append, length_stripCoords]
  have hside := length_sideCoords_le b e _ hs hey
  generalize x_shift_of (e.x_coord - b.x_coord) = s at *
  have hA : e.x_coord - s + 1 - (b.x_coord + s) + s * 2 = e.x_coord - b.x_coord + 1 := by omega
  have hH : e.y_coord + 1 - b.y_coord ≤ e.y_coord - b.y_coord + 1 := by omega
  calc (e.x_coord - s + 1 - (b.x_coord + s)) * (e.y_coord + 1 - b.y_coord) +
        (sideCoords b e s).length
      ≤ (e.x_coord - s + 1 - (b.x_coord + s)) * (e.y_coord + 1 - b.y_coord) +
          s * ((e.y_coord + 1 - b.y_coord) * 2) := Nat.add_le_add_left hside _
    _ = (e.x_coord - s + 1 - (b.x_coord + s) + s * 2) * (e.y_coord + 1 - b.y_coord) := by ring
    _ = (e.x_coord - b.x_coord + 1) * (e.y_coord + 1 - b.y_coord) := by rw [hA]
    _ ≤ (e.x_coord - b.x_coord + 1) * (e.y_coord - b.y_coord + 1) :=
        Nat.mul_le_mul_left _ hH

/-! ## The octagon without wrap -/

theorem mem_circleCoords_iff (b e p : CellCoord) (hx : b.x_coord ≤ e.x_coord)
    (hs : x_shift_of (e.x_coord - b.x_coord) ≤ e.y_coord) (hey : e.y_coord < UINT32_MOD) :
    p ∈ circleCoords b e ↔ inOctagon b e (x_shift_of (e.x_coord - b.x_coord)) p := by
  have h2s := x_shift_of_double_le (e.x_coord - b.x_coord)
  unfold circleCoords inOctagon
  rw [List.mem_append, mem_stripCoords, mem_sideCoords]
  generalize x_shift_of (e.x_coord - b.x_coord) = s at *
  constructor
  · rintro (h | ⟨k, hk1, hk2, hxk, hy1, hy2⟩)
    · exact Or.inl h
    · rw [u32sub_eq _ _ (by omega) hey] at hy2
      exact Or.inr ⟨k, hk1, hk2, by omega, hy1, by omega⟩
  · rintro (h | ⟨k, hk1, hk2, hxk, hy1, hy2⟩)
    · exact Or.inl h
    · refine Or.inr ⟨k, hk1, hk2, by omega, hy1, ?_⟩
      rw [u32sub_eq _ _ (by omega) hey]
      omega

theorem inOctagon_inRect (b e p : CellCoord) (s : Nat) (h2s : 2 * s ≤ e.x_coord - b.x_coord)
    (h : inOctagon b e s p) : inRect b e p := by
  unfold inOctagon at h
  unfold inRect
  rcases h with h | ⟨k, hk1, hk2, hxk, hy1, hy2⟩
  · omega
  · omega

theorem pairwise_rectCoords (low high : CellCoord) :
    (rectCoords low high).Pairwise xMajorLt := by
  unfold rectCoords
  rw [List.pairwise_flatMap]
  constructor
  · intro x _
    rw [List.pairwise_map]
    apply List.Pairwise.imp _ (List.pairwise_lt_range' low.y_coord _)
    intro y y' hlt
    exact Or.inr ⟨rfl, hlt⟩
  · apply List.Pairwise.imp _ (List.pairwise_lt_range' low.x_coord _)
    intro x x' hlt p hp q hq
    simp only [List.mem_map] at hp hq
    obtain ⟨y, _, rfl⟩ := hp
    obtain ⟨y', _, rfl⟩ := hq
    exact Or.inl hlt

/-- With at most `2 ^ 31` cells per map axis every call of `Cell::Visit` returns, on
one of its four exits. -/
theorem Visit_closed (g : GridDefs) (this : Cell) (standing : CellCoord) (x y r : ℚ)
    (hT : g.TOTAL_NUMBER_OF_CELLS_PER_MAP ≤ 2147483648) :
    Visit g this standing x y r = some [] ∨
    Visit g this standing x y r = some [this] ∨
    (spansMoreThan4 (CalculateCellArea g x y (clampRadius g r)) ∧
      Visit g this standing x y r =
        some ((circleCoords (CalculateCellArea g x y (clampRadius g r)).low_bound
          (CalculateCellArea g x y (clampRadius g r)).high_bound).map (r_zone g this))) ∨
    Visit g this standing x y r =
      some (this :: ((rectCoords (CalculateCellArea g x y (clampRadius g r)).low_bound
        (CalculateCellArea g x y (clampRadius g r)).high_bound).filter
          (fun p => decide (p ≠ standing))).map (r_zone g this)) := by
  by_cases hv : standing.IsCoordValid g = true
  · by_cases hr : r ≤ 0
    · right; left
      unfold Visit
      rw [if_neg (by rw [hv]; decide), if_pos hr]
    · by_cases hd : (CalculateCellArea g x y (clampRadius g r)).isDegenerate = true
      · right; left
        rw [Visit_of_valid_pos g this standing x y r hv (not_le.mp hr), if_pos hd]
      · have hd2 : (CalculateCellArea g x y (clampRadius g r)).isDegenerate = false := by
          simpa using hd
        by_cases h4 : spansMoreThan4 (CalculateCellArea g x y (clampRadius g r))
        · right; right; left
          exact ⟨h4, Visit_octagon_closed g this standing x y r hT hv (not_le.mp hr) hd2 h4⟩
        · right; right; right
          exact Visit_rectangle g this standing x y r hT hv (not_le.mp hr) hd2 h4
  · left
    unfold Visit
    rw [if_pos (by simpa using hv)]

theorem length_sideCoords_ge (b e : CellCoord) (s k : Nat) (hks : k ≤ s) (hk : 1 ≤ k) :
    (u32sub e.y_coord k + 1 - (b.y_coord + k)) * 2 ≤ (sideCoords b e s).length := by
  have h := length_le_flatMap (List.range' 1 s)
    (fun k => flankCoords (b.x_coord + s - k) (e.x_coord - s + k)
      (u32sub e.y_coord k) (b.y_coord + k)) k (by rw [List.mem_range'_1]; omega)
  rw [length_flankCoords] at h
  exact h

theorem CalculateCellArea_high_x_le (g : GridDefs) (x y r : ℚ) :
    (CalculateCellArea g x y r).high_bound.x_coord ≤ g.TOTAL_NUMBER_OF_CELLS_PER_MAP - 1 := by
  unfold CalculateCellArea CellCoord.normalize
  split <;> exact Nat.min_le_right _ _

theorem circleCoords_inRect (b e p : CellCoord) (hx : b.x_coord ≤ e.x_coord)
    (hs : x_shift_of (e.x_coord - b.x_coord) ≤ e.y_coord) (hey : e.y_coord < UINT32_MOD)
    (hp : p ∈ circleCoords b e) : inRect b e p :=
  inOctagon_inRect b e p _ (x_shift_of_double_le _)
    ((mem_circleCoords_iff b e p hx hs hey).mp hp)

/-! ## Evaluating the sample grids -/

theorem sample_area_quarter :
    CalculateCellArea sampleGrid (201 / 2) (201 / 2) (clampRadius sampleGrid (1 / 4)) =
      { low_bound := { x_coord := 100, y_coord := 100 }
        high_bound := { x_coord := 100, y_coord := 100 } } := by
  rw [sample_clampRadius (1 / 4) (by norm_num),
    sample_area (201 / 2) (201 / 2) (1 / 4) 100 100 100 100 (by norm_num) (by norm_num)
      (by norm_num) (by norm_num) (by norm_num) (by norm_num) (by norm_num) (by norm_num)
      (by norm_num) (by norm_num) (by norm_num) (by norm_num) (by norm_num)]
  rfl

theorem exact_x_shift_19 : exact_x_shift 19 = 6 := by
  unfold exact_x_shift
  have h : ⌈((19 : Nat) : ℚ) * (3 / 10) - 1 / 2⌉ = 6 := by
    rw [Int.ceil_eq_iff]; norm_num
  rw [h]; rfl

/-- An area of 8 x 8 cells (width and height 7) has shift 2 and an octagon of 52 cells. -/
theorem length_circleCoords_8x8 :
    x_shift_of (299 - 292) = 2 ∧
      (circleCoords { x_coord := 292, y_coord := 292 } { x_coord := 299, y_coord := 299 }).length =
        52 := by
  decide

/-! ## `DBCFileLoader`: one format character -/

theorem eq_getElem_iff_indexOf {l : List Char} (hl : l.Nodup) (c : Char) (hc : c ∈ l)
    (k : Nat) (hk : k < l.length) : c = l[k] ↔ l.indexOf c = k := by
  constructor
  · intro h
    subst h
    exact List.indexOf_getElem hl k hk
  · intro h
    subst h
    exact (List.getElem_indexOf (List.indexOf_lt_length.mpr hc)).symm

theorem FieldFormats.kind_iff (F : FieldFormats) (hF : F.labels.Nodup) (c : Char)
    (hc : c ∈ F.loadable) :
    F.labels.indexOf c < 8 ∧
    (c = F.FT_FLOAT ↔ F.labels.indexOf c = 0) ∧ (c = F.FT_INT ↔ F.labels.indexOf c = 1) ∧
    (c = F.FT_STRING ↔ F.labels.indexOf c = 2) ∧ (c = F.FT_SORT ↔ F.labels.indexOf c = 3) ∧
    (c = F.FT_IND ↔ F.labels.indexOf c = 4) ∧ (c = F.FT_BYTE ↔ F.labels.indexOf c = 5) ∧
    (c = F.FT_NA ↔ F.labels.indexOf c = 6) ∧ (c = F.FT_NA_BYTE ↔ F.labels.indexOf c = 7) ∧
    (c = F.FT_LOGIC ↔ F.labels.indexOf c = 8) := by
  have hlen : F.labels.length = 9 := rfl
  have hmem : c ∈ F.labels := by
    simp only [FieldFormats.loadable, List.mem_cons, List.mem_singleton, List.not_mem_nil,
      or_false] at hc
    simp only [FieldFormats.labels, List.mem_cons, List.mem_singleton, List.not_mem_nil,
      or_false]
    tauto
  have h0 := eq_getElem_iff_indexOf hF c hmem 0 (by omega)
  have h1 := eq_getElem_iff_indexOf hF c hmem 1 (by omega)
  have h2 := eq_getElem_iff_indexOf hF c hmem 2 (by omega)
  have h3 := eq_getElem_iff_indexOf hF c hmem 3 (by omega)
  have h4 := eq_getElem_iff_indexOf hF c hmem 4 (by omega)
  have h5 := eq_getElem_iff_indexOf hF c hmem 5 (by omega)
  have h6 := eq_getElem_iff_indexOf hF c hmem 6 (by omega)
  have h7 := eq_getElem_iff_indexOf hF c hmem 7 (by omega)
  have h8 := eq_getElem_iff_indexOf hF c hmem 8 (by omega)
  refine ⟨?_, h0, h1, h2, h3, h4, h5, h6, h7, h8⟩
  simp only [FieldFormats.loadable, List.mem_cons, List.mem_singleton, List.not_mem_nil,
    or_false] at hc
  rcases hc with h | h | h | h | h | h | h | h
  · have := h0.mp h; omega
  · have := h1.mp h; omega
  · have := h2.mp h; omega
  · have := h3.mp h; omega
  · have := h4.mp h; omega
  · have := h5.mp h; omega
  · have := h6.mp h; omega
  · have := h7.mp h; omega

theorem AutoProduceData_fields_cons (F : FieldFormats) (sp : Nat) (hF : F.labels.Nodup)
    (c : Char) (hc : c ∈ F.loadable) (rest : List Char) (o : Nat) (w : List (Nat × Nat))
    (ho : o < UINT32_MOD) :
    DBCFileLoader.AutoProduceData.fields F sp (c :: rest) o w =
      DBCFileLoader.AutoProduceData.fields F sp rest (u32add o (formatCharBytes F sp c))
        (w ++ (if c = F.FT_NA ∨ c = F.FT_NA_BYTE ∨ c = F.FT_SORT then []
          else [(o, formatCharBytes F sp c)])) := by
  have h0 : u32add o 0 = o := by
    unfold u32add; simp only [UINT32_MOD] at ho ⊢; omega
  obtain ⟨hn, k0, k1, k2, k3, k4, k5, k6, k7, k8⟩ := F.kind_iff hF c hc
  simp only [DBCFileLoader.AutoProduceData.fields, formatCharBytes, k0, k1, k2, k3, k4, k5, k6,
    k7, k8]
  generalize F.labels.indexOf c = n at hn
  split_ifs <;> first | rfl | omega | simp only [h0, List.append_nil]

theorem GetFormatRecordSize.loop_cons (F : FieldFormats) (sp : Nat) (hF : F.labels.Nodup)
    (c : Char) (hc : c ∈ F.loadable) (rest : List Char) (x rs : Nat) (i : Int)
    (hrs : rs < UINT32_MOD) :
    DBCFileLoader.GetFormatRecordSize.loop F sp (c :: rest) x rs i =
      DBCFileLoader.GetFormatRecordSize.loop F sp rest (x + 1)
        (u32add rs (formatCharBytes F sp c))
        (if c = F.FT_SORT ∨ c = F.FT_IND then (x : Int) else i) := by
  have h0 : u32add rs 0 = rs := by
    unfold u32add; simp only [UINT32_MOD] at hrs ⊢; omega
  obtain ⟨hn, k0, k1, k2, k3, k4, k5, k6, k7, k8⟩ := F.kind_iff hF c hc
  simp only [DBCFileLoader.GetFormatRecordSize.loop, formatCharBytes, k0, k1, k2, k3, k4, k5,
    k6, k7, k8]
  generalize F.labels.indexOf c = n at hn
  split_ifs <;> first | rfl | omega | simp only [h0]

theorem AutoProduceStrings_fields_cons (F : FieldFormats) (sp : Nat) (hF : F.labels.Nodup)
    (c : Char) (hc : c ∈ F.loadable) (rest : List Char) (o : Nat) (s : List Nat)
    (ho : o < UINT32_MOD) :
    DBCFileLoader.AutoProduceStrings.fields F sp (c :: rest) o s =
      DBCFileLoader.AutoProduceStrings.fields F sp rest (u32add o (formatCharBytes F sp c))
        (s ++ (if c = F.FT_STRING then [o] else [])) := by
  have h0 : u32add o 0 = o := by
    unfold u32add; simp only [UINT32_MOD] at ho ⊢; omega
  obtain ⟨hn, k0, k1, k2, k3, k4, k5, k6, k7, k8⟩ := F.kind_iff hF c hc
  simp only [DBCFileLoader.AutoProduceStrings.fields, formatCharBytes, k0, k1, k2, k3, k4, k5,
    k6, k7, k8]
  generalize F.labels.indexOf c = n at hn
  split_ifs <;> first | rfl | omega | simp only [h0, List.append_nil]

theorem formatCharBytes_string (F : FieldFormats) (sp : Nat) (hF : F.labels.Nodup) (c : Char)
    (hc : c = F.FT_STRING) : formatCharBytes F sp c = sp := by
  have hmem : c ∈ F.loadable := by
    rw [hc]; simp [FieldFormats.loadable]
  obtain ⟨hn, k0, k1, k2, k3, k4, k5, k6, k7, k8⟩ := F.kind_iff hF c hmem
  have h2 := k2.mp hc
  simp only [formatCharBytes, k0, k1, k2, k4, k5]
  generalize F.labels.indexOf c = n at hn h2
  split_ifs <;> first | rfl | omega

/-! ## `DBCFileLoader`: one record -/

theorem formatBytes_cons (F : FieldFormats) (sp : Nat) (c : Char) (rest : List Char) :
    formatBytes F sp (c :: rest) = formatCharBytes F sp c + formatBytes F sp rest := by
  simp [formatBytes]

theorem GetFormatRecordSize.loop_eq (F : FieldFormats) (sp : Nat) (hF : F.labels.Nodup)
    (format : List Char) :
    ∀ (x rs : Nat) (i : Int), (∀ c ∈ format, c ∈ F.loadable) → rs < UINT32_MOD →
      ∃ i1, DBCFileLoader.GetFormatRecordSize.loop F sp format x rs i =
        some ((rs + formatBytes F sp format) % UINT32_MOD, i1) := by
  induction format with
  | nil =>
    intro x rs i _ hrs
    refine ⟨i, ?_⟩
    simp only [DBCFileLoader.GetFormatRecordSize.loop, formatBytes, List.map_nil, List.sum_nil,
      Nat.add_zero, Nat.mod_eq_of_lt hrs]
  | cons c rest ih =>
    intro x rs i hfmt hrs
    rw [GetFormatRecordSize.loop_cons F sp hF c (hfmt c (List.mem_cons_self _ _)) rest x rs i hrs]
    have hlt : u32add rs (formatCharBytes F sp c) < UINT32_MOD :=
      Nat.mod_lt _ (by unfold UINT32_MOD; omega)
    obtain ⟨i1, h1⟩ := ih (x + 1) (u32add rs (formatCharBytes F sp c))
      (if c = F.FT_SORT ∨ c = F.FT_IND then (x : Int) else i)
      (fun d hd => hfmt d (List.mem_cons_of_mem _ hd)) hlt
    refine ⟨i1, ?_⟩
    rw [h1, formatBytes_cons]
    unfold u32add
    rw [Nat.mod_add_mod, Nat.add_assoc]

theorem AutoProduceData_fields_eq (F : FieldFormats) (sp : Nat) (hF : F.labels.Nodup)
    (format : List Char) :
    ∀ (o : Nat) (w : List (Nat × Nat)), (∀ c ∈ format, c ∈ F.loadable) → o < UINT32_MOD →
      ∃ nw, DBCFileLoader.AutoProduceData.fields F sp format o w =
          some ((o + formatBytes F sp format) % UINT32_MOD, w ++ nw) ∧
        (o + formatBytes F sp format < UINT32_MOD →
          ∀ p ∈ nw, o ≤ p.1 ∧ p.1 + p.2 ≤ o + formatBytes F sp format) := by
  induction format with
  | nil =>
    intro o w _ ho
    refine ⟨[], ?_, ?_⟩
    · simp only [DBCFileLoader.AutoProduceData.fields, formatBytes, List.map_nil, List.sum_nil,
        Nat.add_zero, Nat.mod_eq_of_lt ho, List.append_nil]
    · intro _ p hp
      simp at hp
  | cons c rest ih =>
    intro o w hfmt ho
    rw [AutoProduceData_fields_cons F sp hF c (hfmt c (List.mem_cons_self _ _)) rest o w ho]
    have hlt : u32add o (formatCharBytes F sp c) < UINT32_MOD :=
      Nat.mod_lt _ (by unfold UINT32_MOD; omega)
    obtain ⟨nw, h1, h2⟩ := ih (u32add o (formatCharBytes F sp c))
      (w ++ (if c = F.FT_NA ∨ c = F.FT_NA_BYTE ∨ c = F.FT_SORT then []
          else [(o, formatCharBytes F sp c)]))
      (fun d hd => hfmt d (List.mem_cons_of_mem _ hd)) hlt
    refine ⟨(if c = F.FT_NA ∨ c = F.FT_NA_BYTE ∨ c = F.FT_SORT then []
          else [(o, formatCharBytes F sp c)]) ++ nw, ?_, ?_⟩
    · rw [h1, formatBytes_cons, List.append_assoc]
      unfold u32add
      rw [Nat.mod_add_mod, Nat.add_assoc]
    · rw [formatBytes_cons]
      intro hfit p hp
      have hu : u32add o (formatCharBytes F sp c) = o + formatCharBytes F sp c :=
        Nat.mod_eq_of_lt (by omega)
      rw [hu] at h2
      rcases List.mem_append.mp hp with hp1 | hp2
      · by_cases hcase : c = F.FT_NA ∨ c = F.FT_NA_BYTE ∨ c = F.FT_SORT
        · rw [if_pos hcase] at hp1
          simp at hp1
        · rw [if_neg hcase] at hp1
          have hpe : p = (o, formatCharBytes F sp c) := by simpa using hp1
          subst hpe
          simp only
          omega
      · have := h2 (by omega) p hp2
        omega

theorem AutoProduceStrings_fields_eq (F : FieldFormats) (sp : Nat) (hF : F.labels.Nodup)
    (format : List Char) :
    ∀ (o : Nat) (s : List Nat), (∀ c ∈ format, c ∈ F.loadable) → o < UINT32_MOD →
      ∃ ns, DBCFileLoader.AutoProduceStrings.fields F sp format o s =
          some ((o + formatBytes F sp format) % UINT32_MOD, s ++ ns) ∧
        (o + formatBytes F sp format < UINT32_MOD →
          ∀ a ∈ ns, o ≤ a ∧ a + sp ≤ o + formatBytes F sp format) := by
  induction format with
  | nil =>
    intro o s _ ho
    refine ⟨[], ?_, ?_⟩
    · simp only [DBCFileLoader.AutoProduceStrings.fields, formatBytes, List.map_nil,
        List.sum_nil, Nat.add_zero, Nat.mod_eq_of_lt ho, List.append_nil]
    · intro _ a ha
      simp at ha
  | cons c rest ih =>
    intro o s hfmt ho
    rw [AutoProduceStrings_fields_cons F sp hF c (hfmt c (List.mem_cons_self _ _)) rest o s ho]
    have hlt : u32add o (formatCharBytes F sp c) < UINT32_MOD :=
      Nat.mod_lt _ (by unfold UINT32_MOD; omega)
    obtain ⟨ns, h1, h2⟩ := ih (u32add o (formatCharBytes F sp c))
      (s ++ (if c = F.FT_STRING then [o] else []))
      (fun d hd => hfmt d (List.mem_cons_of_mem _ hd)) hlt
    refine ⟨(if c = F.FT_STRING then [o] else []) ++ ns, ?_, ?_⟩
    · rw [h1, formatBytes_cons, List.append_assoc]
      unfold u32add
      rw [Nat.mod_add_mod, Nat.add_assoc]
    · rw [formatBytes_cons]
      intro hfit a ha
      have hu : u32add o (formatCharBytes F sp c) = o + formatCharBytes F sp c :=
        Nat.mod_eq_of_lt (by omega)
      rw [hu] at h2
      rcases List.mem_append.mp ha with ha1 | ha2
      · by_cases hcase : c = F.FT_STRING
        · rw [if_pos hcase] at ha1
          have hae : a = o := by simpa using ha1
          subst hae
          have hb : formatCharBytes F sp c = sp := formatCharBytes_string F sp hF c hcase
          omega
        · rw [if_neg hcase] at ha1
          simp at ha1
      · have := h2 (by omega) a ha2
        omega

/-! ## `DBCFileLoader`: all records -/

theorem range_map_offsets (o b n : Nat) :
    (List.range (n + 1)).map (fun k => o + k * b) =
      o :: (List.range n).map (fun k => (o + b) + k * b) := by
  rw [List.range_succ_eq_map, List.map_cons, List.map_map]
  congr 1
  · simp
  · apply List.map_congr_left
    intro k _
    simp only [Function.comp, Nat.succ_eq_add_one, Nat.add_mul, Nat.one_mul]
    omega

theorem AutoProduceData_records_eq (F : FieldFormats) (sp : Nat) (hF : F.labels.Nodup)
    (format : List Char) (hfmt : ∀ c ∈ format, c ∈ F.loadable) :
    ∀ (n o : Nat) (st : List Nat) (w : List (Nat × Nat)), o < UINT32_MOD →
      ∃ nst nw, DBCFileLoader.AutoProduceData.records F sp format n o st w =
          some ((o + n * formatBytes F sp format) % UINT32_MOD, st ++ nst, w ++ nw) ∧
        (o + n * formatBytes F sp format < UINT32_MOD →
          nst = (List.range n).map (fun k => o + k * formatBytes F sp format) ∧
          ∀ p ∈ nw, o ≤ p.1 ∧ p.1 + p.2 ≤ o + n * formatBytes F sp format) ∧
        (0 < n → ∀ o1 w1, DBCFileLoader.AutoProduceData.fields F sp format o w = some (o1, w1) →
          ∀ p ∈ w1, p ∈ w ++ nw) := by
  intro n
  induction n with
  | zero =>
    intro o st w ho
    refine ⟨[], [], ?_, ?_, ?_⟩
    · simp only [DBCFileLoader.AutoProduceData.records, Nat.zero_mul, Nat.add_zero,
        Nat.mod_eq_of_lt ho, List.append_nil]
    · intro _
      refine ⟨by simp, ?_⟩
      intro p hp
      simp at hp
    · intro h
      omega
  | succ n ih =>
    intro o st w ho
    obtain ⟨nw1, hf, hb1⟩ := AutoProduceData_fields_eq F sp hF format o w hfmt ho
    have hlt : (o + formatBytes F sp format) % UINT32_MOD < UINT32_MOD :=
      Nat.mod_lt _ (by unfold UINT32_MOD; omega)
    obtain ⟨nst2, nw2, hr, hb2, _⟩ := ih ((o + formatBytes F sp format) % UINT32_MOD)
      (st ++ [o]) (w ++ nw1) hlt
    refine ⟨o :: nst2, nw1 ++ nw2, ?_, ?_, ?_⟩
    · simp only [DBCFileLoader.AutoProduceData.records, hf, hr]
      rw [Nat.mod_add_mod, Nat.succ_mul, List.append_assoc, List.append_assoc]
      simp only [List.singleton_append]
      rw [show o + formatBytes F sp format + n * formatBytes F sp format =
        o + (n * formatBytes F sp format + formatBytes F sp format) by omega]
    · intro hfit
      rw [Nat.succ_mul] at hfit
      have hu : (o + formatBytes F sp format) % UINT32_MOD = o + formatBytes F sp format :=
        Nat.mod_eq_of_lt (by omega)
      rw [hu] at hb2
      obtain ⟨hst2, hw2⟩ := hb2 (by omega)
      refine ⟨?_, ?_⟩
      · rw [range_map_offsets, hst2]
      · intro p hp
        rw [Nat.succ_mul]
        rcases List.mem_append.mp hp with hp1 | hp2
        · have := hb1 (by omega) p hp1
          omega
        · have := hw2 p hp2
          omega
    · intro _ o1 w1 hf1 p hp
      rw [hf] at hf1
      have hw1 : w ++ nw1 = w1 := by
        injection hf1 with h
        exact (Prod.mk.inj h).2
      rw [← hw1] at hp
      rcases List.mem_append.mp hp with hp1 | hp2
      · exact List.mem_append_left _ hp1
      · exact List.mem_append_right _ (List.mem_append_left _ hp2)

theorem AutoProduceStrings_records_eq (F : FieldFormats) (sp : Nat) (hF : F.labels.Nodup)
    (format : List Char) (hfmt : ∀ c ∈ format, c ∈ F.loadable) :
    ∀ (n o : Nat) (s : List Nat), o < UINT32_MOD →
      ∃ ns, DBCFileLoader.AutoProduceStrings.records F sp format n o s =
          some ((o + n * formatBytes F sp format) % UINT32_MOD, s ++ ns) ∧
        (o + n * formatBytes F sp format < UINT32_MOD →
          ∀ a ∈ ns, o ≤ a ∧ a + sp ≤ o + n * formatBytes F sp format) := by
  intro n
  induction n with
  | zero =>
    intro o s ho
    refine ⟨[], ?_, ?_⟩
    · simp only [DBCFileLoader.AutoProduceStrings.records, Nat.zero_mul, Nat.add_zero,
        Nat.mod_eq_of_lt ho, List.append_nil]
    · intro _ a ha
      simp at ha
  | succ n ih =>
    intro o s ho
    obtain ⟨ns1, hf, hb1⟩ := AutoProduceStrings_fields_eq F sp hF format o s hfmt ho
    have hlt : (o + formatBytes F sp format) % UINT32_MOD < UINT32_MOD :=
      Nat.mod_lt _ (by unfold UINT32_MOD; omega)
    obtain ⟨ns2, hr, hb2⟩ := ih ((o + formatBytes F sp format) % UINT32_MOD) (s ++ ns1) hlt
    refine ⟨ns1 ++ ns2, ?_, ?_⟩
    · simp only [DBCFileLoader.AutoProduceStrings.records, hf, hr]
      rw [Nat.mod_add_mod, Nat.succ_mul, List.append_assoc]
      rw [show o + formatBytes F sp format + n * formatBytes F sp format =
        o + (n * formatBytes F sp format + formatBytes F sp format) by omega]
    · intro hfit a ha
      rw [Nat.succ_mul] at hfit ⊢
      have hu : (o + formatBytes F sp format) % UINT32_MOD = o + formatBytes F sp format :=
        Nat.mod_eq_of_lt (by omega)
      rw [hu] at hb2
      rcases List.mem_append.mp ha with ha1 | ha2
      · have := hb1 (by omega) a ha1
        omega
      · have := hb2 (by omega) a ha2
        omega

/-! ## Mappers with a fixed cell size -/

theorem sample_isFixedCellMapper : IsFixedCellMapper sampleGrid := by
  refine ⟨1, 0, fun t => ⌊t⌋, by norm_num, ?_, ?_⟩
  · intro t
    have h1 := Int.floor_le t
    have h2 := Int.lt_floor_add_one t
    rw [abs_le]
    constructor <;> linarith
  · intro x y
    show ({ x_coord := toUInt32 ⌊x⌋, y_coord := toUInt32 ⌊y⌋ } : CellCoord) = _
    simp

/-- With a mapper of fixed cell size the area of a point and a radius is about as high
as it is wide, so the octagon shift of an area that spans more than 4 cells in both
axes never exceeds `high.y`: no border step of `VisitCircle` starts below zero. -/
theorem fixedCell_shift_le_high_y (g : GridDefs) (hmap : IsFixedCellMapper g)
    (hT : g.TOTAL_NUMBER_OF_CELLS_PER_MAP ≤ 2147483648) (x y r : ℚ)
    (h4 : spansMoreThan4 (CalculateCellArea g x y r)) :
    x_shift_of ((CalculateCellArea g x y r).high_bound.x_coord -
        (CalculateCellArea g x y r).low_bound.x_coord) ≤
      (CalculateCellArea g x y r).high_bound.y_coord := by
  obtain ⟨c, b, rnd, _, hnear, hmaps⟩ := hmap
  have h2s := x_shift_of_double_le ((CalculateCellArea g x y r).high_bound.x_coord -
    (CalculateCellArea g x y r).low_bound.x_coord)
  generalize x_shift_of ((CalculateCellArea g x y r).high_bound.x_coord -
    (CalculateCellArea g x y r).low_bound.x_coord) = s at h2s ⊢
  unfold spansMoreThan4 at h4
  unfold CalculateCellArea at h4 h2s ⊢
  by_cases hr : r ≤ 0
  · rw [if_pos hr] at h4
    simp only [] at h4
    omega
  · rw [if_neg hr] at h4 h2s ⊢
    simp only [hmaps, CellCoord.normalize] at h4 h2s ⊢
    have n1 := abs_le.mp (hnear ((x - r) / c + b))
    have n2 := abs_le.mp (hnear ((x + r) / c + b))
    have n3 := abs_le.mp (hnear ((y - r) / c + b))
    have n4 := abs_le.mp (hnear ((y + r) / c + b))
    have e : (x + r) / c + b - ((x - r) / c + b) = (y + r) / c + b - ((y - r) / c + b) := by
      ring
    have hq : ((rnd ((x + r) / c + b) : ℤ) : ℚ) - (rnd ((x - r) / c + b) : ℤ) -
        ((rnd ((y + r) / c + b) : ℤ) - (rnd ((y - r) / c + b) : ℤ)) ≤ 4 := by
      linarith [n1.1, n1.2, n2.1, n2.2, n3.1, n3.2, n4.1, n4.2]
    have hz : rnd ((x + r) / c + b) - rnd ((x - r) / c + b) -
        (rnd ((y + r) / c + b) - rnd ((y - r) / c + b)) ≤ 4 := by
      exact_mod_cast hq
    have hq2 : (-4 : ℚ) ≤ ((rnd ((x + r) / c + b) : ℤ) : ℚ) - (rnd ((x - r) / c + b) : ℤ) -
        ((rnd ((y + r) / c + b) : ℤ) - (rnd ((y - r) / c + b) : ℤ)) := by
      linarith [n1.1, n1.2, n2.1, n2.2, n3.1, n3.2, n4.1, n4.2]
    have hz2 : -4 ≤ rnd ((x + r) / c + b) - rnd ((x - r) / c + b) -
        (rnd ((y + r) / c + b) - rnd ((y - r) / c + b)) := by
      exact_mod_cast hq2
    generalize rnd ((x + r) / c + b) = v' at h4 h2s hz hz2 ⊢
    generalize rnd ((x - r) / c + b) = u' at h4 h2s hz hz2 ⊢
    generalize rnd ((y + r) / c + b) = v at h4 h2s hz hz2 ⊢
    generalize rnd ((y - r) / c + b) = u at h4 h2s hz hz2 ⊢
    generalize g.TOTAL_NUMBER_OF_CELLS_PER_MAP = T at hT h4 h2s ⊢
    unfold toUInt32 at h4 h2s ⊢
    omega

theorem spans_not_degenerate (a : CellArea) (h : spansMoreThan4 a) :
    a.isDegenerate = false := by
  unfold spansMoreThan4 at h
  unfold CellArea.isDegenerate
  rw [decide_eq_false_iff_not]
  intro he
  rw [he] at h
  omega

/-- Without a border step that starts below zero, `VisitCircle` stays inside the
rectangle and leaves its low corner out. -/
theorem VisitCircle_inside_rectangle (g : GridDefs) (this : Cell)
    (begin_cell end_cell : CellCoord)
    (hT : g.TOTAL_NUMBER_OF_CELLS_PER_MAP ≤ 2147483648)
    (hb : begin_cell.IsCoordValid g = true) (he : end_cell.IsCoordValid g = true)
    (h4 : spansMoreThan4 { low_bound := begin_cell, high_bound := end_cell })
    (hs : x_shift_of (end_cell.x_coord - begin_cell.x_coord) ≤ end_cell.y_coord) :
    ∃ trace : List Cell, VisitCircle g this begin_cell end_cell = some trace ∧
      (∀ c ∈ trace, inRect begin_cell end_cell (c.GetCellCoord g)) ∧
      ∃ p : CellCoord, inRect begin_cell end_cell p ∧ p ∉ trace.map (Cell.GetCellCoord g) := by
  unfold spansMoreThan4 at h4
  simp only [] at h4
  have he2 := (IsCoordValid_iff g end_cell).mp he
  have h2s := x_shift_of_double_le (end_cell.x_coord - begin_cell.x_coord)
  have h1s := x_shift_of_pos (end_cell.x_coord - begin_cell.x_coord) (by omega)
  have hmem : ∀ p ∈ circleCoords begin_cell end_cell, inRect begin_cell end_cell p ∧
      p ≠ begin_cell := by
    intro p hp
    unfold circleCoords at hp
    rcases List.mem_append.mp hp with h | h
    · rw [mem_stripCoords] at h
      refine ⟨by unfold inRect; omega, ?_⟩
      intro hpb
      rw [hpb] at h
      omega
    · rw [mem_sideCoords] at h
      obtain ⟨k, hk1, hk2, hx, hy1, hy2⟩ := h
      rw [u32sub_eq _ _ (by omega) (by unfold UINT32_MOD; omega)] at hy2
      refine ⟨by unfold inRect; omega, ?_⟩
      intro hpb
      rw [hpb] at hy1
      omega
  refine ⟨_, VisitCircle_valid g this begin_cell end_cell hT hb he (by omega), ?_, ?_⟩
  · intro c hc
    obtain ⟨p, hp, rfl⟩ := List.mem_map.mp hc
    rw [GetCellCoord_r_zone]
    exact (hmem p hp).1
  · refine ⟨begin_cell, by unfold inRect; omega, ?_⟩
    rw [map_GetCellCoord_r_zone]
    intro hp
    exact (hmem begin_cell hp).2 rfl


/-- The function `Cell::Visit` returns, and its visitations are bounded when no border step
of the octagon starts below zero. -/
theorem Visit_bounded_of_shift (g : GridDefs) (this : Cell) (standing_cell : CellCoord)
    (x_off y_off radius : ℚ) (hT : g.TOTAL_NUMBER_OF_CELLS_PER_MAP ≤ 2147483648) :
    ∃ trace : List Cell, Visit g this standing_cell x_off y_off radius = some trace ∧
      ((spansMoreThan4 (CalculateCellArea g x_off y_off (clampRadius g radius)) →
          x_shift_of ((CalculateCellArea g x_off y_off (clampRadius g radius)).high_bound.x_coord -
            (CalculateCellArea g x_off y_off (clampRadius g radius)).low_bound.x_coord) ≤
            (CalculateCellArea g x_off y_off (clampRadius g radius)).high_bound.y_coord) →
        trace.length ≤
          ((CalculateCellArea g x_off y_off (clampRadius g radius)).high_bound.x_coord -
            (CalculateCellArea g x_off y_off (clampRadius g radius)).low_bound.x_coord + 1) *
          ((CalculateCellArea g x_off y_off (clampRadius g radius)).high_bound.y_coord -
            (CalculateCellArea g x_off y_off (clampRadius g radius)).low_bound.y_coord + 1) + 1 ∧
        ∀ c ∈ trace, c = this ∨
          inRect (CalculateCellArea g x_off y_off (clampRadius g radius)).low_bound
            (CalculateCellArea g x_off y_off (clampRadius g radius)).high_bound
            (c.GetCellCoord g)) ∧
      (g.SIZE_OF_GRIDS < radius → clampRadius g radius = g.SIZE_OF_GRIDS) := by
  have hclamp : g.SIZE_OF_GRIDS < radius → clampRadius g radius = g.SIZE_OF_GRIDS := by
    intro h
    unfold clampRadius
    rw [if_pos h]
  generalize harea : CalculateCellArea g x_off y_off (clampRadius g radius) = area
  have hvalid : 0 < g.TOTAL_NUMBER_OF_CELLS_PER_MAP →
      area.high_bound.y_coord < UINT32_MOD := by
    intro hpos
    have := (CalculateCellArea_lt g x_off y_off (clampRadius g radius) hpos).2.2
    rw [harea] at this
    unfold UINT32_MOD
    omega
  rcases Visit_closed g this standing_cell x_off y_off radius hT with h | h | ⟨h4, h⟩ | h
  · exact ⟨_, h, fun _ => ⟨by simp, by simp⟩, hclamp⟩
  · exact ⟨_, h, fun _ => ⟨by simp, by simp⟩, hclamp⟩
  · rw [harea] at h h4
    refine ⟨_, h, ?_, hclamp⟩
    intro hs0
    have hs := hs0 h4
    unfold spansMoreThan4 at h4
    have hpos : 0 < g.TOTAL_NUMBER_OF_CELLS_PER_MAP := by
      have hl := CalculateCellArea_high_x_le g x_off y_off (clampRadius g radius)
      rw [harea] at hl
      omega
    have hey := hvalid hpos
    constructor
    · rw [List.length_map]
      have := length_circleCoords_le area.low_bound area.high_bound (by omega) hs hey
      omega
    · intro c hc
      obtain ⟨p, hp, rfl⟩ := List.mem_map.mp hc
      rw [GetCellCoord_r_zone]
      exact Or.inr (circleCoords_inRect _ _ p (by omega) hs hey hp)
  · rw [harea] at h
    refine ⟨_, h, ?_, hclamp⟩
    intro _
    constructor
    · rw [List.length_cons, List.length_map]
      have h1 := List.length_filter_le (fun p => decide (p ≠ standing_cell))
        (rectCoords area.low_bound area.high_bound)
      rw [length_rectCoords] at h1
      have h2 : (area.high_bound.x_coord + 1 - area.low_bound.x_coord) *
          (area.high_bound.y_coord + 1 - area.low_bound.y_coord) ≤
          (area.high_bound.x_coord - area.low_bound.x_coord + 1) *
          (area.high_bound.y_coord - area.low_bound.y_coord + 1) :=
        Nat.mul_le_mul (by omega) (by omega)
      omega
    · intro c hc
      rcases List.mem_cons.mp hc with h1 | h1
      · exact Or.inl h1
      · obtain ⟨p, hp, rfl⟩ := List.mem_map.mp h1
        rw [GetCellCoord_r_zone]
        exact Or.inr ((mem_rectCoords _ _ p).mp (List.mem_filter.mp hp).1)


/-! ## The octagon visits no coordinate twice -/

theorem nodup_stripCoords (b e : CellCoord) (s : Nat) : (stripCoords b e s).Nodup := by
  unfold stripCoords
  rw [List.nodup_flatMap]
  constructor
  · intro x _
    apply List.Nodup.map _ (List.nodup_range' _ _)
    intro y y' h
    simpa using h
  · apply List.Pairwise.imp _ (List.nodup_range' _ _)
    intro x x' hne
    show List.Disjoint _ _
    intro p hp hp'
    simp only [List.mem_map] at hp hp'
    obtain ⟨y, _, rfl⟩ := hp
    obtain ⟨y', _, h⟩ := hp'
    simp only [CellCoord.mk.injEq] at h
    exact hne h.1.symm

theorem nodup_flankCoords (xl xr ys ye : Nat) (hne : xl ≠ xr) :
    (flankCoords xl xr ys ye).Nodup := by
  unfold flankCoords
  rw [List.nodup_flatMap]
  constructor
  · intro y _
    simp [hne]
  · apply List.Pairwise.imp _ (List.nodup_reverse.mpr (List.nodup_range' _ _))
    intro y y' hy
    show List.Disjoint _ _
    intro p hp hp'
    simp only [List.mem_cons, List.mem_singleton, List.not_mem_nil, or_false] at hp hp'
    rcases hp with rfl | rfl <;> rcases hp' with h | h <;>
      simp only [CellCoord.mk.injEq] at h <;> exact hy h.2

theorem nodup_sideCoords (b e : CellCoord) (s : Nat) (hx : b.x_coord ≤ e.x_coord)
    (h2s : 2 * s ≤ e.x_coord - b.x_coord) : (sideCoords b e s).Nodup := by
  unfold sideCoords
  rw [List.nodup_flatMap]
  constructor
  · intro k hk
    rw [List.mem_range'_1] at hk
    exact nodup_flankCoords _ _ _ _ (by omega)
  · have hpw : List.Pairwise (fun k k' => k ≠ k' ∧ 1 ≤ k ∧ k ≤ s ∧ 1 ≤ k' ∧ k' ≤ s)
        (List.range' 1 s) := by
      rw [List.pairwise_iff_forall_sublist]
      intro k k' hsub
      have hmem : k ∈ List.range' 1 s ∧ k' ∈ List.range' 1 s := by
        constructor
        · exact hsub.subset (List.mem_cons_self _ _)
        · exact hsub.subset (List.mem_cons_of_mem _ (List.mem_singleton_self _))
      have hnd : [k, k'].Nodup := hsub.nodup (List.nodup_range' _ _)
      simp only [List.nodup_cons, List.mem_singleton, List.not_mem_nil, not_false_eq_true,
        List.nodup_nil, and_true] at hnd
      rw [List.mem_range'_1, List.mem_range'_1] at hmem
      exact ⟨hnd, by omega, by omega, by omega, by omega⟩
    apply List.Pairwise.imp _ hpw
    intro k k' hk
    show List.Disjoint _ _
    intro p hp hp'
    rw [mem_flankCoords] at hp hp'
    omega

theorem nodup_circleCoords (b e : CellCoord) (hx : b.x_coord ≤ e.x_coord) :
    (circleCoords b e).Nodup := by
  have h2s := x_shift_of_double_le (e.x_coord - b.x_coord)
  unfold circleCoords
  rw [List.nodup_append]
  refine ⟨nodup_stripCoords _ _ _, nodup_sideCoords _ _ _ hx h2s, ?_⟩
  intro p hp hp'
  rw [mem_stripCoords] at hp
  rw [mem_sideCoords] at hp'
  obtain ⟨k, hk1, hk2, hxk, _, _⟩ := hp'
  omega

/-! ## `SelectThreadWithMinConnections` -/

theorem SelectThreadWithMinConnections.loop_spec (counts : List Int) :
    ∀ (fuel i min : Nat), min < i → i ≤ counts.length → counts.length - i ≤ fuel →
      (∀ j, j < i → counts.getD min 0 ≤ counts.getD j 0) →
      (∀ j, j < min → counts.getD min 0 < counts.getD j 0) →
      SelectThreadWithMinConnections.loop counts fuel i min < counts.length ∧
      (∀ j, j < counts.length →
        counts.getD (SelectThreadWithMinConnections.loop counts fuel i min) 0 ≤
          counts.getD j 0) ∧
      (∀ j, j < SelectThreadWithMinConnections.loop counts fuel i min →
        counts.getD (SelectThreadWithMinConnections.loop counts fuel i min) 0 <
          counts.getD j 0) := by
  intro fuel
  induction fuel with
  | zero =>
    intro i min hmi hin hfuel hle hlt
    have hi : i = counts.length := by omega
    subst hi
    unfold SelectThreadWithMinConnections.loop
    exact ⟨hmi, hle, hlt⟩
  | succ n ih =>
    intro i min hmi hin hfuel hle hlt
    unfold SelectThreadWithMinConnections.loop
    by_cases hi : i < counts.length
    · rw [if_pos hi]
      by_cases hc : counts.getD i 0 < counts.getD min 0
      · rw [if_pos hc]
        apply ih (i + 1) i (by omega) (by omega) (by omega)
        · intro j hj
          by_cases hji : j = i
          · subst hji; exact le_refl _
          · exact le_of_lt (lt_of_lt_of_le hc (hle j (by omega)))
        · intro j hj
          exact lt_of_lt_of_le hc (hle j hj)
      · rw [if_neg hc]
        apply ih (i + 1) min (by omega) (by omega) (by omega)
        · intro j hj
          by_cases hji : j = i
          · subst hji; exact not_lt.mp hc
          · exact hle j (by omega)
        · exact hlt
    · rw [if_neg hi]
      have hi2 : i = counts.length := by omega
      subst hi2
      exact ⟨hmi, hle, hlt⟩

/-! ## `DatabaseLoader::Process` -/

theorem DatabaseLoader.closeAll_eq (stack : List Nat) :
    ∀ ev : List LoaderEvent, DatabaseLoader.closeAll stack ev =
      { _close := [], events := ev ++ stack.map LoaderEvent.closed } := by
  induction stack with
  | nil => intro ev; simp [DatabaseLoader.closeAll]
  | cons c rest ih =>
    intro ev
    unfold DatabaseLoader.closeAll
    rw [ih]
    simp

theorem DatabaseLoader.Process_all_true (q : List Predicate) :
    ∀ s : LoaderState, (∀ p ∈ q, p.result = true) →
      DatabaseLoader.Process q s =
        (true, [], { _close := (q.flatMap (fun p => p.registers)).reverse ++ s._close
                     events := s.events ++ q.map (fun p => LoaderEvent.ran p.id) }) := by
  induction q with
  | nil => intro s _; simp [DatabaseLoader.Process]
  | cons p rest ih =>
    intro s h
    have hp : p.result = true := h p (List.mem_cons_self _ _)
    unfold DatabaseLoader.Process
    simp only [hp, Bool.true_eq_false, if_false]
    rw [ih _ (fun r hr => h r (List.mem_cons_of_mem _ hr))]
    simp

theorem DatabaseLoader.Process_first_false (pre : List Predicate) :
    ∀ (s : LoaderState) (f : Predicate) (post : List Predicate),
      (∀ p ∈ pre, p.result = true) → f.result = false →
      DatabaseLoader.Process (pre ++ f :: post) s =
        (false, f :: post,
          { _close := []
            events := s.events ++ (pre ++ [f]).map (fun p => LoaderEvent.ran p.id) ++
              (((pre ++ [f]).flatMap (fun p => p.registers)).reverse ++ s._close).map
                LoaderEvent.closed }) := by
  induction pre with
  | nil =>
    intro s f post _ hf
    simp only [List.nil_append]
    unfold DatabaseLoader.Process
    simp only [hf, if_true]
    rw [DatabaseLoader.closeAll_eq]
    simp
  | cons p rest ih =>
    intro s f post h hf
    have hp : p.result = true := h p (List.mem_cons_self _ _)
    simp only [List.cons_append]
    unfold DatabaseLoader.Process
    simp only [hp, Bool.true_eq_false, if_false]
    rw [ih _ f post (fun r hr => h r (List.mem_cons_of_mem _ hr)) hf]
    simp

theorem DatabaseLoader.Process_result (q : List Predicate) :
    ∀ s : LoaderState, (DatabaseLoader.Process q s).1 = true ↔ ∀ p ∈ q, p.result = true := by
  induction q with
  | nil => intro s; simp [DatabaseLoader.Process]
  | cons p rest ih =>
    intro s
    unfold DatabaseLoader.Process
    by_cases hp : p.result = false
    · simp [hp]
    · have hp2 : p.result = true := by simpa using hp
      simp only [hp2, Bool.true_eq_false, if_false, List.mem_cons, forall_eq_or_imp, true_and]
      exact ih _

theorem DatabaseLoader.Process_append (a : List Predicate) :
    ∀ (b : List Predicate) (s : LoaderState),
      DatabaseLoader.Process (a ++ b) s =
        if (DatabaseLoader.Process a s).1 = false then
          (false, (DatabaseLoader.Process a s).2.1 ++ b, (DatabaseLoader.Process a s).2.2)
        else DatabaseLoader.Process b (DatabaseLoader.Process a s).2.2 := by
  induction a with
  | nil => intro b s; simp [DatabaseLoader.Process]
  | cons p rest ih =>
    intro b s
    simp only [List.cons_append]
    by_cases hp : p.result = false
    · simp [DatabaseLoader.Process, hp]
    · have hp2 : p.result = true := by simpa using hp
      simp only [DatabaseLoader.Process, hp2, Bool.true_eq_false, if_false]
      exact ih b _

/-! ## The open step -/

theorem DatabaseLoader.openStep_count_check (E : Nat) (u a : Bool) (cfg : OpenConfig)
    (pool : PoolAnswers) (hinfo : cfg.DatabaseInfo ≠ "") :
    (¬ (1 ≤ toUInt8 cfg.WorkerThreads ∧ toUInt8 cfg.WorkerThreads ≤ 32) →
      DatabaseLoader.openStep E u a cfg pool = (false, [])) ∧
    (1 ≤ toUInt8 cfg.WorkerThreads ∧ toUInt8 cfg.WorkerThreads ≤ 32 →
      PoolCall.SetConnectionInfo cfg.DatabaseInfo (toUInt8 cfg.WorkerThreads)
        (toUInt8 cfg.SynchThreads) ∈ (DatabaseLoader.openStep E u a cfg pool).2) := by
  constructor
  · intro h
    unfold DatabaseLoader.openStep
    rw [if_neg hinfo, if_pos (by omega)]
  · intro h
    unfold DatabaseLoader.openStep
    rw [if_neg hinfo, if_neg (by omega)]
    simp only []
    split
    · split
      · split
        · split <;> simp
        · simp
      · simp
    · simp

/-! ## Claims -/

/-- C1: when the standing cell coordinate is invalid (a component is not below the
total number of cells per map axis), `Cell::Visit` returns without any per-cell
visitation, so the visitor is invoked zero times, for every cell, point and radius. -/
theorem Visit_invalid_standing_cell (g : GridDefs) (this : Cell) (standing_cell : CellCoord)
    (x_off y_off radius : ℚ) (h : standing_cell.IsCoordValid g = false) :
    Visit g this standing_cell x_off y_off radius = some [] := by
  unfold Visit
  rw [if_pos h]

theorem Visit_invalid_standing_cell_witness :
    CellCoord.IsCoordValid sampleGrid { x_coord := 512, y_coord := 0 } = false ∧
      Visit sampleGrid (Cell.ofCellCoord sampleGrid { x_coord := 512, y_coord := 0 })
        { x_coord := 512, y_coord := 0 } 512 0 3 = some [] :=
  ⟨by decide, Visit_invalid_standing_cell sampleGrid _ _ 512 0 3 (by decide)⟩

/-- C2: for a valid standing cell and a radius `r <= 0`, `Cell::Visit` performs exactly
one per-cell visitation, of the cell it is called on, and nothing else; through the
point-centred entry, whose cell is built from the position, that cell is the cell of
the coordinate the point `(x, y)` maps to. -/
theorem Visit_nonpositive_radius (g : GridDefs) (this : Cell) (standing_cell : CellCoord)
    (x_off y_off radius : ℚ) (hv : standing_cell.IsCoordValid g = true) (hr : radius ≤ 0) :
    Visit g this standing_cell x_off y_off radius = some [this] ∧
      (g.ComputeCellCoord x_off y_off = standing_cell →
        ∀ dont_load : Bool, ∃ c : Cell,
          VisitGridObjects g x_off y_off radius dont_load = some [c] ∧
            c.GetCellCoord g = g.ComputeCellCoord x_off y_off ∧ c.nocreate = dont_load) := by
  have h1 : ∀ c : Cell, Visit g c standing_cell x_off y_off radius = some [c] := by
    intro c
    unfold Visit
    rw [if_neg (by rw [hv]; decide), if_pos hr]
  refine ⟨h1 this, ?_⟩
  intro hp dont_load
  unfold VisitGridObjects
  simp only [hp]
  refine ⟨_, h1 _, ?_, ?_⟩
  · cases dont_load
    · exact GetCellCoord_ofCellCoord g standing_cell
    · exact GetCellCoord_ofCellCoord g standing_cell
  · cases dont_load <;> rfl

theorem Visit_nonpositive_radius_witness :
    CellCoord.IsCoordValid sampleGrid { x_coord := 100, y_coord := 100 } = true ∧
      Visit sampleGrid (Cell.ofCellCoord sampleGrid { x_coord := 100, y_coord := 100 })
        { x_coord := 100, y_coord := 100 } (201 / 2) (201 / 2) 0 =
          some [Cell.ofCellCoord sampleGrid { x_coord := 100, y_coord := 100 }] :=
  ⟨by decide,
    (Visit_nonpositive_radius sampleGrid _ { x_coord := 100, y_coord := 100 } (201 / 2) (201 / 2) 0
      (by decide) (le_refl 0)).1⟩

/-- C4: for a radius above `SIZE_OF_GRIDS` (a positive grid extent), `Cell::Visit`
performs exactly the per-cell visitations of the same call with radius
`SIZE_OF_GRIDS`: the radius is clamped, not rejected. -/
theorem Visit_radius_clamped (g : GridDefs) (this : Cell) (standing_cell : CellCoord)
    (x_off y_off radius : ℚ) (hS : 0 < g.SIZE_OF_GRIDS) (hr : g.SIZE_OF_GRIDS < radius) :
    Visit g this standing_cell x_off y_off radius =
      Visit g this standing_cell x_off y_off g.SIZE_OF_GRIDS := by
  unfold Visit
  have h1 : ¬ radius ≤ 0 := not_le.mpr (lt_trans hS hr)
  have h2 : ¬ g.SIZE_OF_GRIDS ≤ 0 := not_le.mpr hS
  have h3 : ¬ g.SIZE_OF_GRIDS > g.SIZE_OF_GRIDS := lt_irrefl _
  simp only [if_neg h1, if_neg h2, if_neg h3, if_pos (show radius > g.SIZE_OF_GRIDS from hr)]

theorem Visit_radius_clamped_witness :
    (0 : ℚ) < sampleGrid.SIZE_OF_GRIDS ∧ sampleGrid.SIZE_OF_GRIDS < 3000 ∧
      Visit sampleGrid (Cell.ofCellCoord sampleGrid { x_coord := 100, y_coord := 100 })
        { x_coord := 100, y_coord := 100 } (201 / 2) (201 / 2) 3000 =
      Visit sampleGrid (Cell.ofCellCoord sampleGrid { x_coord := 100, y_coord := 100 })
        { x_coord := 100, y_coord := 100 } (201 / 2) (201 / 2) sampleGrid.SIZE_OF_GRIDS :=
  ⟨by norm_num [sampleGrid], by norm_num [sampleGrid],
    Visit_radius_clamped sampleGrid _ _ (201 / 2) (201 / 2) 3000
      (by norm_num [sampleGrid]) (by norm_num [sampleGrid])⟩

/-- C5: on the exhaustive rectangle path of `Cell::Visit` (valid standing cell, positive
radius, non-degenerate area that does not span more than 4 cells in both axes), called
on the cell of the standing coordinate, the traversal returns and no cell coordinate
receives more than one per-cell visitation, the initial standing-cell visit counted
together with the loop over `[low.x, high.x] x [low.y, high.y]`. -/
theorem Visit_rectangle_no_cell_twice (g : GridDefs) (this : Cell) (standing_cell : CellCoord)
    (x_off y_off radius : ℚ)
    (hT : g.TOTAL_NUMBER_OF_CELLS_PER_MAP ≤ 2147483648)
    (hthis : this.GetCellCoord g = standing_cell)
    (hv : standing_cell.IsCoordValid g = true) (hr : 0 < radius)
    (hd : (CalculateCellArea g x_off y_off (clampRadius g radius)).isDegenerate = false)
    (h4 : ¬ spansMoreThan4 (CalculateCellArea g x_off y_off (clampRadius g radius))) :
    ∃ trace : List Cell, Visit g this standing_cell x_off y_off radius = some trace ∧
      (trace.map (Cell.GetCellCoord g)).Nodup := by
  refine ⟨_, Visit_rectangle g this standing_cell x_off y_off radius hT hv hr hd h4, ?_⟩
  rw [List.map_cons, map_GetCellCoord_r_zone, hthis, List.nodup_cons]
  constructor
  · intro hmem
    have := (List.mem_filter.mp hmem).2
    simp at this
  · exact List.Nodup.filter _ (nodup_rectCoords _ _)

theorem Visit_rectangle_no_cell_twice_witness :
    ∃ trace : List Cell,
      Visit sampleGrid (Cell.ofCellCoord sampleGrid { x_coord := 100, y_coord := 100 })
        { x_coord := 100, y_coord := 100 } (201 / 2) (201 / 2) 2 = some trace ∧
      (trace.map (Cell.GetCellCoord sampleGrid)).Nodup :=
  Visit_rectangle_no_cell_twice sampleGrid _ { x_coord := 100, y_coord := 100 } (201 / 2) (201 / 2) 2
    (by decide) (GetCellCoord_ofCellCoord sampleGrid _) (by decide) (by norm_num)
    (by rw [sample_area_100]; decide) (by rw [sample_area_100]; unfold spansMoreThan4; decide)

/-- C10: for a valid standing cell, a positive radius and a non-degenerate area,
`Cell::Visit` is the octagon traversal `VisitCircle` over the area's low and high
bounds, with no separate standing-cell visit, when the area spans more than 4 cells in
both axes (`high.x > low.x + 4` and `high.y > low.y + 4`), and in every other case the
exhaustive rectangle traversal: the standing cell, then the rectangle's other cells. -/
theorem Visit_selects_octagon_iff (g : GridDefs) (this : Cell) (standing_cell : CellCoord)
    (x_off y_off radius : ℚ)
    (hT : g.TOTAL_NUMBER_OF_CELLS_PER_MAP ≤ 2147483648)
    (hv : standing_cell.IsCoordValid g = true) (hr : 0 < radius)
    (hd : (CalculateCellArea g x_off y_off (clampRadius g radius)).isDegenerate = false) :
    (spansMoreThan4 (CalculateCellArea g x_off y_off (clampRadius g radius)) →
      Visit g this standing_cell x_off y_off radius =
        VisitCircle g this (CalculateCellArea g x_off y_off (clampRadius g radius)).low_bound
          (CalculateCellArea g x_off y_off (clampRadius g radius)).high_bound) ∧
    (¬ spansMoreThan4 (CalculateCellArea g x_off y_off (clampRadius g radius)) →
      Visit g this standing_cell x_off y_off radius =
        some (this :: ((rectCoords
          (CalculateCellArea g x_off y_off (clampRadius g radius)).low_bound
          (CalculateCellArea g x_off y_off (clampRadius g radius)).high_bound).filter
            (fun p => decide (p ≠ standing_cell))).map (r_zone g this))) :=
  ⟨Visit_octagon g this standing_cell x_off y_off radius hT hv hr hd,
    Visit_rectangle g this standing_cell x_off y_off radius hT hv hr hd⟩

theorem Visit_selects_octagon_iff_witness :
    spansMoreThan4 (CalculateCellArea sampleGrid (601 / 2) (601 / 2) (clampRadius sampleGrid 8)) ∧
      Visit sampleGrid (Cell.ofCellCoord sampleGrid { x_coord := 300, y_coord := 300 })
        { x_coord := 300, y_coord := 300 } (601 / 2) (601 / 2) 8 =
      VisitCircle sampleGrid (Cell.ofCellCoord sampleGrid { x_coord := 300, y_coord := 300 })
        (CalculateCellArea sampleGrid (601 / 2) (601 / 2) (clampRadius sampleGrid 8)).low_bound
        (CalculateCellArea sampleGrid (601 / 2) (601 / 2) (clampRadius sampleGrid 8)).high_bound :=
  have h4 : spansMoreThan4
      (CalculateCellArea sampleGrid (601 / 2) (601 / 2) (clampRadius sampleGrid 8)) := by
    rw [sample_area_300]; unfold spansMoreThan4; decide
  ⟨h4, (Visit_selects_octagon_iff sampleGrid _ { x_coord := 300, y_coord := 300 }
    (601 / 2) (601 / 2) 8 (by decide) (by decide) (by norm_num)
    (by rw [sample_area_300]; decide)).1 h4⟩

/-- C3 (failing input): on the sample grid the point `(511.5, 511.5)` lies in the valid
corner cell `(511, 511)`; with radius 8 the area is `[503, 511] x [503, 511]`, clamped
at both map edges, non-degenerate and more than 4 cells wide and high, so `Cell::Visit`
takes the octagon path; it returns after 69 per-cell visitations and none of them is of
the standing cell `(511, 511)`. -/
theorem Visit_octagon_skips_corner_standing_cell :
    sampleGrid.ComputeCellCoord (1023 / 2) (1023 / 2) = { x_coord := 511, y_coord := 511 } ∧
    CellCoord.IsCoordValid sampleGrid { x_coord := 511, y_coord := 511 } = true ∧
    CalculateCellArea sampleGrid (1023 / 2) (1023 / 2) (clampRadius sampleGrid 8) =
      { low_bound := { x_coord := 503, y_coord := 503 }
        high_bound := { x_coord := 511, y_coord := 511 } } ∧
    ∃ trace : List Cell,
      Visit sampleGrid (Cell.ofCellCoord sampleGrid { x_coord := 511, y_coord := 511 })
        { x_coord := 511, y_coord := 511 } (1023 / 2) (1023 / 2) 8 = some trace ∧
      trace.length = 69 ∧
      ({ x_coord := 511, y_coord := 511 } : CellCoord) ∉
        trace.map (Cell.GetCellCoord sampleGrid) := by
  refine ⟨sample_ComputeCellCoord _ _ 511 511 (by norm_num) (by norm_num) (by norm_num)
    (by norm_num) (by norm_num) (by norm_num), by decide, sample_area_corner, ?_⟩
  have hV := Visit_octagon sampleGrid
    (Cell.ofCellCoord sampleGrid { x_coord := 511, y_coord := 511 })
    { x_coord := 511, y_coord := 511 } (1023 / 2) (1023 / 2) 8 (by decide) (by decide)
    (by norm_num) (by rw [sample_area_corner]; decide)
    (by rw [sample_area_corner]; unfold spansMoreThan4; decide)
  rw [sample_area_corner] at hV
  rw [hV, VisitCircle_valid sampleGrid _ _ _ (by decide) (by decide) (by decide) (by decide)]
  refine ⟨_, rfl, ?_, ?_⟩
  · rw [List.length_map]
    decide
  · rw [map_GetCellCoord_r_zone]
    decide

/-- C8: for every area for which `Cell::Visit` selects the octagon traversal (valid
standing cell, positive radius, area of the clamped radius spanning more than 4 cells in
both axes), on a map whose coordinate mapper has a fixed cell size, `Visit` returns what
`VisitCircle` visits on that area; every visited cell lies inside the rectangle
`[low.x, high.x] x [low.y, high.y]`, so neither `x` nor `y` wraps, and at least one
cell of the rectangle is not visited. -/
theorem Visit_octagon_strict_subset_of_rectangle (g : GridDefs) (this : Cell)
    (standing_cell : CellCoord) (x_off y_off radius : ℚ)
    (hmap : IsFixedCellMapper g) (hT : g.TOTAL_NUMBER_OF_CELLS_PER_MAP ≤ 2147483648)
    (hv : standing_cell.IsCoordValid g = true) (hr : 0 < radius)
    (h4 : spansMoreThan4 (CalculateCellArea g x_off y_off (clampRadius g radius))) :
    ∃ trace : List Cell, Visit g this standing_cell x_off y_off radius = some trace ∧
      VisitCircle g this (CalculateCellArea g x_off y_off (clampRadius g radius)).low_bound
        (CalculateCellArea g x_off y_off (clampRadius g radius)).high_bound = some trace ∧
      (∀ c ∈ trace,
        inRect (CalculateCellArea g x_off y_off (clampRadius g radius)).low_bound
          (CalculateCellArea g x_off y_off (clampRadius g radius)).high_bound
          (c.GetCellCoord g)) ∧
      ∃ p : CellCoord,
        inRect (CalculateCellArea g x_off y_off (clampRadius g radius)).low_bound
          (CalculateCellArea g x_off y_off (clampRadius g radius)).high_bound p ∧
        p ∉ trace.map (Cell.GetCellCoord g) := by
  have hpos : 0 < g.TOTAL_NUMBER_OF_CELLS_PER_MAP := by
    have := (IsCoordValid_iff g standing_cell).mp hv
    omega
  have hval := CalculateCellArea_valid g x_off y_off (clampRadius g radius) hpos
  have hs := fixedCell_shift_le_high_y g hmap hT x_off y_off (clampRadius g radius) h4
  obtain ⟨trace, ht, hin, hout⟩ := VisitCircle_inside_rectangle g this
    (CalculateCellArea g x_off y_off (clampRadius g radius)).low_bound
    (CalculateCellArea g x_off y_off (clampRadius g radius)).high_bound hT hval.1 hval.2 h4 hs
  refine ⟨trace, ?_, ht, hin, hout⟩
  rw [Visit_octagon g this standing_cell x_off y_off radius hT hv hr
    (spans_not_degenerate _ h4) h4]
  exact ht

theorem Visit_octagon_strict_subset_of_rectangle_witness :
    ∃ trace : List Cell,
      Visit sampleGrid (Cell.ofCellCoord sampleGrid { x_coord := 300, y_coord := 300 })
        { x_coord := 300, y_coord := 300 } (601 / 2) (601 / 2) 8 = some trace ∧
      VisitCircle sampleGrid (Cell.ofCellCoord sampleGrid { x_coord := 300, y_coord := 300 })
        (CalculateCellArea sampleGrid (601 / 2) (601 / 2) (clampRadius sampleGrid 8)).low_bound
        (CalculateCellArea sampleGrid (601 / 2) (601 / 2)
          (clampRadius sampleGrid 8)).high_bound = some trace ∧
      (∀ c ∈ trace,
        inRect
          (CalculateCellArea sampleGrid (601 / 2) (601 / 2) (clampRadius sampleGrid 8)).low_bound
          (CalculateCellArea sampleGrid (601 / 2) (601 / 2)
            (clampRadius sampleGrid 8)).high_bound
          (c.GetCellCoord sampleGrid)) ∧
      ∃ p : CellCoord,
        inRect
          (CalculateCellArea sampleGrid (601 / 2) (601 / 2) (clampRadius sampleGrid 8)).low_bound
          (CalculateCellArea sampleGrid (601 / 2) (601 / 2)
            (clampRadius sampleGrid 8)).high_bound p ∧
        p ∉ trace.map (Cell.GetCellCoord sampleGrid) :=
  Visit_octagon_strict_subset_of_rectangle sampleGrid _ { x_coord := 300, y_coord := 300 }
    (601 / 2) (601 / 2) 8 sample_isFixedCellMapper (by decide) (by decide) (by norm_num)
    (by rw [sample_area_300]; unfold spansMoreThan4; decide)

/-- C9 (counterexample): on the sample grid the point `(300.5, 510.5)` with radius 8
has the area `[292, 308] x [502, 511]`, clamped at the high `y` edge of the map; it
spans more than 4 cells in both axes, so `Cell::Visit` hands it to `VisitCircle`. Its
shift is 5 while it is only 9 cells high: the fifth border step has no cell left
between `y = 507` and `y = 506`, and the midpoint of the rectangle's left edge,
`(292, 506)` or `(292, 507)`, is not visited. -/
theorem VisitCircle_flat_area_misses_edge_midpoint :
    CalculateCellArea sampleGrid (601 / 2) (1021 / 2) (clampRadius sampleGrid 8) =
      { low_bound := { x_coord := 292, y_coord := 502 }
        high_bound := { x_coord := 308, y_coord := 511 } } ∧
    spansMoreThan4 { low_bound := { x_coord := 292, y_coord := 502 }
                     high_bound := { x_coord := 308, y_coord := 511 } } ∧
    ∃ trace : List Cell,
      VisitCircle sampleGrid (Cell.ofCellCoord sampleGrid { x_coord := 300, y_coord := 510 })
        { x_coord := 292, y_coord := 502 } { x_coord := 308, y_coord := 511 } = some trace ∧
      ({ x_coord := 292, y_coord := 506 } : CellCoord) ∉
        trace.map (Cell.GetCellCoord sampleGrid) ∧
      ({ x_coord := 292, y_coord := 507 } : CellCoord) ∉
        trace.map (Cell.GetCellCoord sampleGrid) := by
  refine ⟨?_, by unfold spansMoreThan4; decide, ?_⟩
  · rw [sample_clampRadius 8 (by norm_num),
      sample_area (601 / 2) (1021 / 2) 8 292 502 308 518 (by norm_num) (by norm_num)
        (by norm_num) (by norm_num) (by norm_num) (by norm_num) (by norm_num) (by norm_num)
        (by norm_num) (by norm_num) (by norm_num) (by norm_num) (by norm_num)]
    rfl
  · rw [VisitCircle_valid sampleGrid _ _ _ (by decide) (by decide) (by decide) (by decide)]
    refine ⟨_, rfl, ?_, ?_⟩
    · rw [map_GetCellCoord_r_zone]
      decide
    · rw [map_GetCellCoord_r_zone]
      decide

/-- C9 (amended): for every area of valid coordinates that spans more than 4 cells in
both axes, `VisitCircle` returns and visits the midpoints `(mx, low.y)` and
`(mx, high.y)` of the low and high `y` edges; it visits the midpoints `(low.x, my)` and
`(high.x, my)` of the other two edges when twice the octagon shift does not exceed
`high.y - low.y`. Here `mx` and `my` are the midpoints of `[low.x, high.x]` and
`[low.y, high.y]`, rounded down. -/
theorem VisitCircle_visits_edge_midpoints (g : GridDefs) (this : Cell)
    (begin_cell end_cell : CellCoord)
    (hT : g.TOTAL_NUMBER_OF_CELLS_PER_MAP ≤ 2147483648)
    (hb : begin_cell.IsCoordValid g = true) (he : end_cell.IsCoordValid g = true)
    (h4 : spansMoreThan4 { low_bound := begin_cell, high_bound := end_cell }) :
    ∃ trace : List Cell, VisitCircle g this begin_cell end_cell = some trace ∧
      ({ x_coord := (begin_cell.x_coord + end_cell.x_coord) / 2,
         y_coord := begin_cell.y_coord } : CellCoord) ∈ trace.map (Cell.GetCellCoord g) ∧
      ({ x_coord := (begin_cell.x_coord + end_cell.x_coord) / 2,
         y_coord := end_cell.y_coord } : CellCoord) ∈ trace.map (Cell.GetCellCoord g) ∧
      (2 * x_shift_of (end_cell.x_coord - begin_cell.x_coord) ≤
          end_cell.y_coord - begin_cell.y_coord →
        ({ x_coord := begin_cell.x_coord,
           y_coord := (begin_cell.y_coord + end_cell.y_coord) / 2 } : CellCoord) ∈
            trace.map (Cell.GetCellCoord g) ∧
        ({ x_coord := end_cell.x_coord,
           y_coord := (begin_cell.y_coord + end_cell.y_coord) / 2 } : CellCoord) ∈
            trace.map (Cell.GetCellCoord g)) := by
  unfold spansMoreThan4 at h4
  simp only [] at h4
  have he2 := (IsCoordValid_iff g end_cell).mp he
  have h2s := x_shift_of_double_le (end_cell.x_coord - begin_cell.x_coord)
  have h1s := x_shift_of_pos (end_cell.x_coord - begin_cell.x_coord) (by omega)
  refine ⟨_, VisitCircle_valid g this begin_cell end_cell hT hb he (by omega), ?_, ?_, ?_⟩
  · rw [map_GetCellCoord_r_zone]
    unfold circleCoords
    apply List.mem_append_left
    rw [mem_stripCoords]
    simp only []
    omega
  · rw [map_GetCellCoord_r_zone]
    unfold circleCoords
    apply List.mem_append_left
    rw [mem_stripCoords]
    simp only []
    omega
  · intro hh
    rw [map_GetCellCoord_r_zone]
    unfold circleCoords
    constructor
    · apply List.mem_append_right
      rw [mem_sideCoords]
      refine ⟨x_shift_of (end_cell.x_coord - begin_cell.x_coord), h1s, le_refl _, ?_, ?_, ?_⟩
      · left; simp only []; omega
      · simp only []; omega
      · rw [u32sub_eq _ _ (by omega) (by unfold UINT32_MOD; omega)]
        simp only []; omega
    · apply List.mem_append_right
      rw [mem_sideCoords]
      refine ⟨x_shift_of (end_cell.x_coord - begin_cell.x_coord), h1s, le_refl _, ?_, ?_, ?_⟩
      · right; simp only []; omega
      · simp only []; omega
      · rw [u32sub_eq _ _ (by omega) (by unfold UINT32_MOD; omega)]
        simp only []; omega

theorem VisitCircle_visits_edge_midpoints_witness :
    ∃ trace : List Cell,
      VisitCircle sampleGrid (Cell.ofCellCoord sampleGrid { x_coord := 300, y_coord := 300 })
        { x_coord := 292, y_coord := 292 } { x_coord := 308, y_coord := 308 } = some trace ∧
      ({ x_coord := 300, y_coord := 292 } : CellCoord) ∈
        trace.map (Cell.GetCellCoord sampleGrid) ∧
      ({ x_coord := 300, y_coord := 308 } : CellCoord) ∈
        trace.map (Cell.GetCellCoord sampleGrid) ∧
      (2 * x_shift_of (308 - 292) ≤ 308 - 292 →
        ({ x_coord := 292, y_coord := 300 } : CellCoord) ∈
          trace.map (Cell.GetCellCoord sampleGrid) ∧
        ({ x_coord := 308, y_coord := 300 } : CellCoord) ∈
          trace.map (Cell.GetCellCoord sampleGrid)) :=
  VisitCircle_visits_edge_midpoints sampleGrid _ { x_coord := 292, y_coord := 292 }
    { x_coord := 308, y_coord := 308 } (by decide) (by decide) (by decide)
    (by unfold spansMoreThan4; decide)

/-- C11: on the exhaustive rectangle path (valid standing cell, positive radius,
non-degenerate area not spanning more than 4 cells in both axes), `Cell::Visit`, called
on the cell of the standing coordinate, returns; it visits the standing cell first and
then exactly the coordinates of `[low.x, high.x] x [low.y, high.y]` other than the
standing cell, in x-major then y order; the visited coordinates are exactly the
rectangle's together with the standing cell. -/
theorem Visit_rectangle_traversal (g : GridDefs) (this : Cell) (standing_cell : CellCoord)
    (x_off y_off radius : ℚ)
    (hT : g.TOTAL_NUMBER_OF_CELLS_PER_MAP ≤ 2147483648)
    (hthis : this.GetCellCoord g = standing_cell)
    (hv : standing_cell.IsCoordValid g = true) (hr : 0 < radius)
    (hd : (CalculateCellArea g x_off y_off (clampRadius g radius)).isDegenerate = false)
    (h4 : ¬ spansMoreThan4 (CalculateCellArea g x_off y_off (clampRadius g radius))) :
    ∃ rest : List Cell,
      Visit g this standing_cell x_off y_off radius = some (this :: rest) ∧
      (∀ p, p ∈ rest.map (Cell.GetCellCoord g) ↔
        inRect (CalculateCellArea g x_off y_off (clampRadius g radius)).low_bound
          (CalculateCellArea g x_off y_off (clampRadius g radius)).high_bound p ∧
            p ≠ standing_cell) ∧
      (rest.map (Cell.GetCellCoord g)).Pairwise xMajorLt ∧
      (∀ p, p ∈ (this :: rest).map (Cell.GetCellCoord g) ↔
        p = standing_cell ∨
          inRect (CalculateCellArea g x_off y_off (clampRadius g radius)).low_bound
            (CalculateCellArea g x_off y_off (clampRadius g radius)).high_bound p) := by
  have hrest : ∀ p, p ∈ (((rectCoords
      (CalculateCellArea g x_off y_off (clampRadius g radius)).low_bound
      (CalculateCellArea g x_off y_off (clampRadius g radius)).high_bound).filter
        (fun p => decide (p ≠ standing_cell))).map (r_zone g this)).map (Cell.GetCellCoord g) ↔
      inRect (CalculateCellArea g x_off y_off (clampRadius g radius)).low_bound
        (CalculateCellArea g x_off y_off (clampRadius g radius)).high_bound p ∧
          p ≠ standing_cell := by
    intro p
    rw [map_GetCellCoord_r_zone, List.mem_filter, mem_rectCoords]
    simp
  refine ⟨_, Visit_rectangle g this standing_cell x_off y_off radius hT hv hr hd h4, hrest, ?_, ?_⟩
  · rw [map_GetCellCoord_r_zone]
    exact List.Pairwise.filter _ (pairwise_rectCoords _ _)
  · intro p
    rw [List.map_cons, List.mem_cons, hrest p, hthis]
    constructor
    · rintro (h | h)
      · exact Or.inl h
      · exact Or.inr h.1
    · rintro (h | h)
      · exact Or.inl h
      · by_cases hp : p = standing_cell
        · exact Or.inl hp
        · exact Or.inr ⟨h, hp⟩

theorem Visit_rectangle_traversal_witness :
    ∃ rest : List Cell,
      Visit sampleGrid (Cell.ofCellCoord sampleGrid { x_coord := 100, y_coord := 100 })
        { x_coord := 100, y_coord := 100 } (201 / 2) (201 / 2) 2 =
          some (Cell.ofCellCoord sampleGrid { x_coord := 100, y_coord := 100 } :: rest) ∧
      (∀ p, p ∈ rest.map (Cell.GetCellCoord sampleGrid) ↔
        inRect (CalculateCellArea sampleGrid (201 / 2) (201 / 2) (clampRadius sampleGrid 2)).low_bound
          (CalculateCellArea sampleGrid (201 / 2) (201 / 2) (clampRadius sampleGrid 2)).high_bound p ∧
            p ≠ { x_coord := 100, y_coord := 100 }) ∧
      (rest.map (Cell.GetCellCoord sampleGrid)).Pairwise xMajorLt ∧
      (∀ p, p ∈ (Cell.ofCellCoord sampleGrid { x_coord := 100, y_coord := 100 } :: rest).map
          (Cell.GetCellCoord sampleGrid) ↔
        p = { x_coord := 100, y_coord := 100 } ∨
          inRect (CalculateCellArea sampleGrid (201 / 2) (201 / 2) (clampRadius sampleGrid 2)).low_bound
            (CalculateCellArea sampleGrid (201 / 2) (201 / 2) (clampRadius sampleGrid 2)).high_bound p) :=
  Visit_rectangle_traversal sampleGrid _ { x_coord := 100, y_coord := 100 } (201 / 2) (201 / 2) 2
    (by decide) (GetCellCoord_ofCellCoord sampleGrid _) (by decide) (by norm_num)
    (by rw [sample_area_100]; decide) (by rw [sample_area_100]; unfold spansMoreThan4; decide)

/-- C12: for every `x`, `y` and every radius `<= 0`, `CalculateCellArea` returns the
area whose low bound and high bound are both the normalized cell coordinate of
`(x, y)`; the area is degenerate (low bound == high bound), a value and not an error. -/
theorem CalculateCellArea_nonpositive_radius (g : GridDefs) (x y radius : ℚ)
    (hr : radius ≤ 0) :
    (CalculateCellArea g x y radius).low_bound = (g.ComputeCellCoord x y).normalize g ∧
      (CalculateCellArea g x y radius).high_bound = (g.ComputeCellCoord x y).normalize g ∧
      (CalculateCellArea g x y radius).isDegenerate = true := by
  unfold CalculateCellArea
  rw [if_pos hr]
  refine ⟨rfl, rfl, ?_⟩
  unfold CellArea.isDegenerate
  simp

theorem CalculateCellArea_nonpositive_radius_witness :
    (-3 : ℚ) ≤ 0 ∧
      (CalculateCellArea sampleGrid (201 / 2) (201 / 2) (-3)).low_bound =
        (sampleGrid.ComputeCellCoord (201 / 2) (201 / 2)).normalize sampleGrid ∧
      (CalculateCellArea sampleGrid (201 / 2) (201 / 2) (-3)).high_bound =
        (sampleGrid.ComputeCellCoord (201 / 2) (201 / 2)).normalize sampleGrid ∧
      (CalculateCellArea sampleGrid (201 / 2) (201 / 2) (-3)).isDegenerate = true :=
  ⟨by norm_num, CalculateCellArea_nonpositive_radius sampleGrid (201 / 2) (201 / 2) (-3)
    (by norm_num)⟩

/-- C13: for a valid standing cell and a radius `> 0`, when the area computed from the
clamped radius is degenerate (low bound == high bound), `Cell::Visit` performs exactly
one per-cell visitation, of the cell it is called on, and returns. -/
theorem Visit_degenerate_area (g : GridDefs) (this : Cell) (standing_cell : CellCoord)
    (x_off y_off radius : ℚ) (hv : standing_cell.IsCoordValid g = true) (hr : 0 < radius)
    (hd : (CalculateCellArea g x_off y_off (clampRadius g radius)).isDegenerate = true) :
    Visit g this standing_cell x_off y_off radius = some [this] := by
  rw [Visit_of_valid_pos g this standing_cell x_off y_off radius hv hr, if_pos hd]

theorem Visit_degenerate_area_witness :
    (CalculateCellArea sampleGrid (201 / 2) (201 / 2)
        (clampRadius sampleGrid (1 / 4))).isDegenerate = true ∧
      Visit sampleGrid (Cell.ofCellCoord sampleGrid { x_coord := 100, y_coord := 100 })
        { x_coord := 100, y_coord := 100 } (201 / 2) (201 / 2) (1 / 4) =
          some [Cell.ofCellCoord sampleGrid { x_coord := 100, y_coord := 100 }] :=
  ⟨by rw [sample_area_quarter]; decide,
    Visit_degenerate_area sampleGrid _ { x_coord := 100, y_coord := 100 } (201 / 2) (201 / 2)
      (1 / 4) (by decide) (by norm_num) (by rw [sample_area_quarter]; decide)⟩

/-- C14: every cell that `Cell::Visit` passes to the map's per-cell visitation carries
the no-create flag of the cell the traversal was invoked on, on every path, and with at
most `2 ^ 31` cells per map axis the traversal returns; the same holds for every cell
`VisitCircle` passes, strip and flanks, for any area. The invoking cell is not
modified: where it is visited, it is visited as it is. -/
theorem traversal_cells_carry_nocreate (g : GridDefs) (this : Cell) (standing_cell : CellCoord)
    (x_off y_off radius : ℚ) (hT : g.TOTAL_NUMBER_OF_CELLS_PER_MAP ≤ 2147483648) :
    (∃ trace : List Cell, Visit g this standing_cell x_off y_off radius = some trace ∧
      ∀ c ∈ trace, c.nocreate = this.nocreate) ∧
    (∀ (begin_cell end_cell : CellCoord) (trace : List Cell),
      VisitCircle g this begin_cell end_cell = some trace →
        ∀ c ∈ trace, c.nocreate = this.nocreate) := by
  constructor
  · have hall := Visit_forall (fun c => c.nocreate = this.nocreate) g this standing_cell
      x_off y_off radius rfl (fun _ => rfl)
    rcases Visit_closed g this standing_cell x_off y_off radius hT with h | h | ⟨_, h⟩ | h
    · exact ⟨_, h, hall _ h⟩
    · exact ⟨_, h, hall _ h⟩
    · exact ⟨_, h, hall _ h⟩
    · exact ⟨_, h, hall _ h⟩
  · intro b e trace h
    exact VisitCircle_forall (fun c => c.nocreate = this.nocreate) g this b e (fun _ => rfl)
      trace h

theorem traversal_cells_carry_nocreate_witness :
    ∃ trace : List Cell,
      Visit sampleGrid (Cell.ofCellCoord sampleGrid { x_coord := 300, y_coord := 300 }).SetNoCreate
        { x_coord := 300, y_coord := 300 } (601 / 2) (601 / 2) 8 = some trace ∧
      ∀ c ∈ trace, c.nocreate =
        (Cell.ofCellCoord sampleGrid { x_coord := 300, y_coord := 300 }).SetNoCreate.nocreate :=
  (traversal_cells_carry_nocreate sampleGrid
    (Cell.ofCellCoord sampleGrid { x_coord := 300, y_coord := 300 }).SetNoCreate
    { x_coord := 300, y_coord := 300 } (601 / 2) (601 / 2) 8 (by decide)).1

/-- C15: the entity-centred `Cell::Visit` performs exactly the visitations of the
point-centred `Cell::Visit` at the entity's position with `radius + combat reach`, and
so does the entity-centred entry `VisitGridObjects` with respect to the point-centred
one: the widening is applied once. It is applied before the `radius <= 0` test (a
widened radius `<= 0` gives the single-cell visit) and before the clamp (a widened
radius above `SIZE_OF_GRIDS` behaves as `SIZE_OF_GRIDS`). -/
theorem Visit_obj_widens_radius_once (g : GridDefs) (this : Cell) (standing_cell : CellCoord)
    (obj : WorldObject) (radius : ℚ) :
    Visit_obj g this standing_cell obj radius =
      Visit g this standing_cell obj.GetPositionX obj.GetPositionY
        (radius + obj.GetCombatReach) ∧
    (∀ dont_load : Bool, VisitGridObjects_obj g obj radius dont_load =
      VisitGridObjects g obj.GetPositionX obj.GetPositionY (radius + obj.GetCombatReach)
        dont_load) ∧
    (standing_cell.IsCoordValid g = true → radius + obj.GetCombatReach ≤ 0 →
      Visit_obj g this standing_cell obj radius = some [this]) ∧
    (0 < g.SIZE_OF_GRIDS → g.SIZE_OF_GRIDS < radius + obj.GetCombatReach →
      Visit_obj g this standing_cell obj radius =
        Visit g this standing_cell obj.GetPositionX obj.GetPositionY g.SIZE_OF_GRIDS) := by
  refine ⟨rfl, fun _ => rfl, ?_, ?_⟩
  · intro hv hr
    unfold Visit_obj Visit
    rw [if_neg (by rw [hv]; decide), if_pos hr]
  · intro hS hr
    unfold Visit_obj Visit
    have h1 : ¬ radius + obj.GetCombatReach ≤ 0 := not_le.mpr (lt_trans hS hr)
    have h2 : ¬ g.SIZE_OF_GRIDS ≤ 0 := not_le.mpr hS
    have h3 : ¬ g.SIZE_OF_GRIDS > g.SIZE_OF_GRIDS := lt_irrefl _
    simp only [if_neg h1, if_neg h2, if_neg h3,
      if_pos (show radius + obj.GetCombatReach > g.SIZE_OF_GRIDS from hr)]

/-- C20: the `Cell` constructed from a cell coordinate `p` stores on each axis the zone
`p / MAX_NUMBER_OF_CELLS` and the intra-zone part `p % MAX_NUMBER_OF_CELLS`; then
`zone * MAX_NUMBER_OF_CELLS + intra-zone == p` and `intra-zone < MAX_NUMBER_OF_CELLS`
(the packing is lossless), and the no-create flag of the new cell is unset. -/
theorem Cell_ofCellCoord_packing (g : GridDefs) (p : CellCoord)
    (hM : 0 < g.MAX_NUMBER_OF_CELLS) :
    (Cell.ofCellCoord g p).grid_x = p.x_coord / g.MAX_NUMBER_OF_CELLS ∧
    (Cell.ofCellCoord g p).grid_y = p.y_coord / g.MAX_NUMBER_OF_CELLS ∧
    (Cell.ofCellCoord g p).cell_x = p.x_coord % g.MAX_NUMBER_OF_CELLS ∧
    (Cell.ofCellCoord g p).cell_y = p.y_coord % g.MAX_NUMBER_OF_CELLS ∧
    (Cell.ofCellCoord g p).grid_x * g.MAX_NUMBER_OF_CELLS + (Cell.ofCellCoord g p).cell_x =
      p.x_coord ∧
    (Cell.ofCellCoord g p).grid_y * g.MAX_NUMBER_OF_CELLS + (Cell.ofCellCoord g p).cell_y =
      p.y_coord ∧
    (Cell.ofCellCoord g p).cell_x < g.MAX_NUMBER_OF_CELLS ∧
    (Cell.ofCellCoord g p).cell_y < g.MAX_NUMBER_OF_CELLS ∧
    (Cell.ofCellCoord g p).nocreate = false := by
  refine ⟨rfl, rfl, rfl, rfl, ?_, ?_, Nat.mod_lt _ hM, Nat.mod_lt _ hM, rfl⟩
  · show p.x_coord / g.MAX_NUMBER_OF_CELLS * g.MAX_NUMBER_OF_CELLS +
      p.x_coord % g.MAX_NUMBER_OF_CELLS = p.x_coord
    rw [Nat.mul_comm]; exact Nat.div_add_mod _ _
  · show p.y_coord / g.MAX_NUMBER_OF_CELLS * g.MAX_NUMBER_OF_CELLS +
      p.y_coord % g.MAX_NUMBER_OF_CELLS = p.y_coord
    rw [Nat.mul_comm]; exact Nat.div_add_mod _ _

theorem Cell_ofCellCoord_packing_witness :
    (Cell.ofCellCoord sampleGrid { x_coord := 301, y_coord := 510 }).grid_x = 37 ∧
    (Cell.ofCellCoord sampleGrid { x_coord := 301, y_coord := 510 }).cell_x = 5 ∧
    (Cell.ofCellCoord sampleGrid { x_coord := 301, y_coord := 510 }).grid_y = 63 ∧
    (Cell.ofCellCoord sampleGrid { x_coord := 301, y_coord := 510 }).cell_y = 6 ∧
    (Cell.ofCellCoord sampleGrid { x_coord := 301, y_coord := 510 }).nocreate = false :=
  have h := Cell_ofCellCoord_packing sampleGrid { x_coord := 301, y_coord := 510 } (by decide)
  ⟨h.1, h.2.2.1, h.2.1, h.2.2.2.1, h.2.2.2.2.2.2.2.2⟩

/-- C19: on a map of at most `2 ^ 31` cells per axis whose coordinate mapper has a fixed
cell size, `Cell::Visit` returns for every cell, standing coordinate, point and radius.
No loop wraps: every visited cell is the invoking cell or lies inside the area of the
clamped radius, and the number of per-cell visitations is at most
`(high.x - low.x + 1) * (high.y - low.y + 1) + 1` for that area. The area is that of
the clamped radius: above `SIZE_OF_GRIDS` the requested radius no longer enters. -/
theorem Visit_terminates_within_bound (g : GridDefs) (this : Cell) (standing_cell : CellCoord)
    (x_off y_off radius : ℚ)
    (hmap : IsFixedCellMapper g) (hT : g.TOTAL_NUMBER_OF_CELLS_PER_MAP ≤ 2147483648) :
    ∃ trace : List Cell, Visit g this standing_cell x_off y_off radius = some trace ∧
      trace.length ≤
        ((CalculateCellArea g x_off y_off (clampRadius g radius)).high_bound.x_coord -
          (CalculateCellArea g x_off y_off (clampRadius g radius)).low_bound.x_coord + 1) *
        ((CalculateCellArea g x_off y_off (clampRadius g radius)).high_bound.y_coord -
          (CalculateCellArea g x_off y_off (clampRadius g radius)).low_bound.y_coord + 1) + 1 ∧
      (∀ c ∈ trace, c = this ∨
        inRect (CalculateCellArea g x_off y_off (clampRadius g radius)).low_bound
          (CalculateCellArea g x_off y_off (clampRadius g radius)).high_bound
          (c.GetCellCoord g)) ∧
      (g.SIZE_OF_GRIDS < radius → clampRadius g radius = g.SIZE_OF_GRIDS) := by
  obtain ⟨trace, ht, hb, hc⟩ := Visit_bounded_of_shift g this standing_cell x_off y_off radius hT
  have hbound := hb (fixedCell_shift_le_high_y g hmap hT x_off y_off (clampRadius g radius))
  exact ⟨trace, ht, hbound.1, hbound.2, hc⟩

theorem Visit_terminates_within_bound_witness :
    ∃ trace : List Cell,
      Visit sampleGrid (Cell.ofCellCoord sampleGrid { x_coord := 300, y_coord := 300 })
        { x_coord := 300, y_coord := 300 } (601 / 2) (601 / 2) 3000 = some trace ∧
      trace.length ≤
        ((CalculateCellArea sampleGrid (601 / 2) (601 / 2)
            (clampRadius sampleGrid 3000)).high_bound.x_coord -
          (CalculateCellArea sampleGrid (601 / 2) (601 / 2)
            (clampRadius sampleGrid 3000)).low_bound.x_coord + 1) *
        ((CalculateCellArea sampleGrid (601 / 2) (601 / 2)
            (clampRadius sampleGrid 3000)).high_bound.y_coord -
          (CalculateCellArea sampleGrid (601 / 2) (601 / 2)
            (clampRadius sampleGrid 3000)).low_bound.y_coord + 1) + 1 ∧
      (∀ c ∈ trace, c = Cell.ofCellCoord sampleGrid { x_coord := 300, y_coord := 300 } ∨
        inRect (CalculateCellArea sampleGrid (601 / 2) (601 / 2)
            (clampRadius sampleGrid 3000)).low_bound
          (CalculateCellArea sampleGrid (601 / 2) (601 / 2)
            (clampRadius sampleGrid 3000)).high_bound
          (c.GetCellCoord sampleGrid)) ∧
      (sampleGrid.SIZE_OF_GRIDS < 3000 → clampRadius sampleGrid 3000 = sampleGrid.SIZE_OF_GRIDS) :=
  Visit_terminates_within_bound sampleGrid _ { x_coord := 300, y_coord := 300 } (601 / 2)
    (601 / 2) 3000 sample_isFixedCellMapper (by decide)

/-- C21: for every area of valid coordinates for which `Cell::Visit` selects the
octagon traversal (width and height both greater than 4), `VisitCircle` returns and
visits no cell coordinate more than once; the central strip and the flank columns are
pairwise disjoint, and twice the shift does not exceed `high.x - low.x`. -/
theorem VisitCircle_no_cell_twice (g : GridDefs) (this : Cell) (begin_cell end_cell : CellCoord)
    (hT : g.TOTAL_NUMBER_OF_CELLS_PER_MAP ≤ 2147483648)
    (hb : begin_cell.IsCoordValid g = true) (he : end_cell.IsCoordValid g = true)
    (h4 : spansMoreThan4 { low_bound := begin_cell, high_bound := end_cell }) :
    ∃ trace : List Cell, VisitCircle g this begin_cell end_cell = some trace ∧
      (trace.map (Cell.GetCellCoord g)).Nodup ∧
      trace.map (Cell.GetCellCoord g) =
        stripCoords begin_cell end_cell (x_shift_of (end_cell.x_coord - begin_cell.x_coord)) ++
          sideCoords begin_cell end_cell (x_shift_of (end_cell.x_coord - begin_cell.x_coord)) ∧
      (∀ p ∈ stripCoords begin_cell end_cell
          (x_shift_of (end_cell.x_coord - begin_cell.x_coord)),
        p ∉ sideCoords begin_cell end_cell
          (x_shift_of (end_cell.x_coord - begin_cell.x_coord))) ∧
      2 * x_shift_of (end_cell.x_coord - begin_cell.x_coord) ≤
        end_cell.x_coord - begin_cell.x_coord := by
  unfold spansMoreThan4 at h4
  simp only [] at h4
  have hx : begin_cell.x_coord ≤ end_cell.x_coord := by omega
  have hnd := nodup_circleCoords begin_cell end_cell hx
  refine ⟨_, VisitCircle_valid g this begin_cell end_cell hT hb he hx, ?_, ?_, ?_,
    x_shift_of_double_le _⟩
  · rw [map_GetCellCoord_r_zone]
    exact hnd
  · rw [map_GetCellCoord_r_zone]
    rfl
  · unfold circleCoords at hnd
    intro p hp hp'
    exact (List.nodup_append.mp hnd).2.2 hp hp'

theorem VisitCircle_no_cell_twice_witness :
    ∃ trace : List Cell,
      VisitCircle sampleGrid (Cell.ofCellCoord sampleGrid { x_coord := 300, y_coord := 300 })
        { x_coord := 292, y_coord := 292 } { x_coord := 308, y_coord := 308 } = some trace ∧
      (trace.map (Cell.GetCellCoord sampleGrid)).Nodup ∧
      trace.map (Cell.GetCellCoord sampleGrid) =
        stripCoords { x_coord := 292, y_coord := 292 } { x_coord := 308, y_coord := 308 }
            (x_shift_of (308 - 292)) ++
          sideCoords { x_coord := 292, y_coord := 292 } { x_coord := 308, y_coord := 308 }
            (x_shift_of (308 - 292)) ∧
      (∀ p ∈ stripCoords { x_coord := 292, y_coord := 292 } { x_coord := 308, y_coord := 308 }
          (x_shift_of (308 - 292)),
        p ∉ sideCoords { x_coord := 292, y_coord := 292 } { x_coord := 308, y_coord := 308 }
          (x_shift_of (308 - 292))) ∧
      2 * x_shift_of (308 - 292) ≤ 308 - 292 :=
  VisitCircle_no_cell_twice sampleGrid _ { x_coord := 292, y_coord := 292 }
    { x_coord := 308, y_coord := 308 } (by decide) (by decide) (by decide)
    (by unfold spansMoreThan4; decide)

/-- C23: for every non-empty list of per-thread connection counts,
`SelectThreadWithMinConnections` returns an index `m` below the thread count, the count
of thread `m` is at most the count of every thread, and every thread before `m` has a
strictly larger count, so `m` is the lowest index that attains the minimum. -/
theorem SelectThreadWithMinConnections_lowest_minimum (counts : List Int)
    (hne : counts ≠ []) :
    SelectThreadWithMinConnections counts < counts.length ∧
    (∀ j, j < counts.length →
      counts.getD (SelectThreadWithMinConnections counts) 0 ≤ counts.getD j 0) ∧
    (∀ j, j < SelectThreadWithMinConnections counts →
      counts.getD (SelectThreadWithMinConnections counts) 0 < counts.getD j 0) := by
  have hlen : 0 < counts.length := List.length_pos.mpr hne
  unfold SelectThreadWithMinConnections
  apply SelectThreadWithMinConnections.loop_spec counts counts.length 1 0 (by omega) (by omega)
    (by omega)
  · intro j hj
    have hj0 : j = 0 := by omega
    subst hj0
    exact le_refl _
  · intro j hj
    omega

theorem SelectThreadWithMinConnections_lowest_minimum_witness :
    SelectThreadWithMinConnections [3, 1, 4, 1, 5] < ([3, 1, 4, 1, 5] : List Int).length ∧
    (∀ j, j < ([3, 1, 4, 1, 5] : List Int).length →
      ([3, 1, 4, 1, 5] : List Int).getD (SelectThreadWithMinConnections [3, 1, 4, 1, 5]) 0 ≤
        ([3, 1, 4, 1, 5] : List Int).getD j 0) ∧
    (∀ j, j < SelectThreadWithMinConnections [3, 1, 4, 1, 5] →
      ([3, 1, 4, 1, 5] : List Int).getD (SelectThreadWithMinConnections [3, 1, 4, 1, 5]) 0 <
        ([3, 1, 4, 1, 5] : List Int).getD j 0) :=
  SelectThreadWithMinConnections_lowest_minimum [3, 1, 4, 1, 5] (by decide)

/-- C24: `DatabaseLoader::Process` returns true exactly when every queued predicate
returns true; then it has run them all in queue order and the queue is empty. When `f`
is the first predicate that returns false, it runs the predicates up to `f` in queue
order and none after it, then invokes every close operation, the latest registered
first, leaves `_close` empty and returns false. `DatabaseLoader::Load` gives the result
and the calls of `Process` on the open, populate, update and prepare queues in a row, so
it runs the phases in that order and nothing after the first failure. -/
theorem Process_runs_in_order_until_failure (q : List Predicate) (s : LoaderState)
    (queues : LoaderQueues) :
    ((DatabaseLoader.Process q s).1 = true ↔ ∀ p ∈ q, p.result = true) ∧
    ((∀ p ∈ q, p.result = true) →
      DatabaseLoader.Process q s =
        (true, [], { _close := (q.flatMap (fun p => p.registers)).reverse ++ s._close
                     events := s.events ++ q.map (fun p => LoaderEvent.ran p.id) })) ∧
    (∀ (pre : List Predicate) (f : Predicate) (post : List Predicate),
      q = pre ++ f :: post → (∀ p ∈ pre, p.result = true) → f.result = false →
      DatabaseLoader.Process q s =
        (false, f :: post,
          { _close := []
            events := s.events ++ (pre ++ [f]).map (fun p => LoaderEvent.ran p.id) ++
              (((pre ++ [f]).flatMap (fun p => p.registers)).reverse ++ s._close).map
                LoaderEvent.closed })) ∧
    (DatabaseLoader.Load queues s).1 =
      (DatabaseLoader.Process
        (queues._open ++ (queues._populate ++ (queues._update ++ queues._prepare))) s).1 ∧
    (DatabaseLoader.Load queues s).2.2 =
      (DatabaseLoader.Process
        (queues._open ++ (queues._populate ++ (queues._update ++ queues._prepare))) s).2.2 := by
  refine ⟨DatabaseLoader.Process_result q s, DatabaseLoader.Process_all_true q s, ?_, ?_, ?_⟩
  · intro pre f post hq hpre hf
    rw [hq]
    exact DatabaseLoader.Process_first_false pre s f post hpre hf
  · unfold DatabaseLoader.Load
    rw [DatabaseLoader.Process_append, DatabaseLoader.Process_append,
      DatabaseLoader.Process_append]
    simp only []
    split_ifs <;> rfl
  · unfold DatabaseLoader.Load
    rw [DatabaseLoader.Process_append, DatabaseLoader.Process_append,
      DatabaseLoader.Process_append]
    simp only []
    split_ifs <;> rfl

theorem Process_runs_in_order_until_failure_witness :
    DatabaseLoader.Process
      [{ id := 1, result := true, registers := [10] },
        { id := 2, result := true, registers := [20] },
        { id := 3, result := false, registers := [] },
        { id := 4, result := true, registers := [40] }]
      { _close := [], events := [] } =
    (false,
      [{ id := 3, result := false, registers := [] },
        { id := 4, result := true, registers := [40] }],
      { _close := []
        events := [LoaderEvent.ran 1, LoaderEvent.ran 2, LoaderEvent.ran 3,
          LoaderEvent.closed 20, LoaderEvent.closed 10] }) :=
  (Process_runs_in_order_until_failure _ { _close := [], events := [] }
    { _open := [], _populate := [], _update := [], _prepare := [] }).2.2.1
    [{ id := 1, result := true, registers := [10] },
      { id := 2, result := true, registers := [20] }]
    { id := 3, result := false, registers := [] }
    [{ id := 4, result := true, registers := [40] }] rfl (by decide) rfl

/-- C25: the open step does not reject every worker-thread count outside 1..32. The
setting is converted to `uint8` before it is compared, so the values 257 and 288 and
-255 pass the check as 1, 32 and 1: the step sets the connection info, opens the pool
and returns true, while 33 and 0 are rejected. -/
theorem openStep_accepts_worker_threads_257 :
    DatabaseLoader.openStep 1049 false false
        { DatabaseInfo := "127.0.0.1;3306;trinity;trinity;world", WorkerThreads := 257,
          SynchThreads := 1 }
        { openError := 0, createOk := true, reopenError := 0 } =
      (true, [PoolCall.SetConnectionInfo "127.0.0.1;3306;trinity;trinity;world" 1 1,
        PoolCall.Open, PoolCall.pushClose]) ∧
    DatabaseLoader.openStep 1049 false false
        { DatabaseInfo := "127.0.0.1;3306;trinity;trinity;world", WorkerThreads := 288,
          SynchThreads := 1 }
        { openError := 0, createOk := true, reopenError := 0 } =
      (true, [PoolCall.SetConnectionInfo "127.0.0.1;3306;trinity;trinity;world" 32 1,
        PoolCall.Open, PoolCall.pushClose]) ∧
    DatabaseLoader.openStep 1049 false false
        { DatabaseInfo := "127.0.0.1;3306;trinity;trinity;world", WorkerThreads := -255,
          SynchThreads := 1 }
        { openError := 0, createOk := true, reopenError := 0 } =
      (true, [PoolCall.SetConnectionInfo "127.0.0.1;3306;trinity;trinity;world" 1 1,
        PoolCall.Open, PoolCall.pushClose]) ∧
    DatabaseLoader.openStep 1049 false false
        { DatabaseInfo := "127.0.0.1;3306;trinity;trinity;world", WorkerThreads := 33,
          SynchThreads := 1 }
        { openError := 0, createOk := true, reopenError := 0 } = (false, []) ∧
    DatabaseLoader.openStep 1049 false false
        { DatabaseInfo := "127.0.0.1;3306;trinity;trinity;world", WorkerThreads := 0,
          SynchThreads := 1 }
        { openError := 0, createOk := true, reopenError := 0 } = (false, []) := by
  refine ⟨by decide, by decide, by decide, by decide, by decide⟩

/-- C22, counterexample: with the format `i` (one field of 4 bytes) and 1073741824
records the product `recordCount * recordsize` wraps to 0 in `uint32`: `AutoProduceData`
allocates a table of 0 bytes and ends at offset 0, not at 4294967296, and its first
field write, 4 bytes at offset 0, is not inside the table. -/
theorem AutoProduceData_write_outside_table :
    dbcFormats.labels.Nodup ∧ (∀ c ∈ ['i'], c ∈ dbcFormats.loadable) ∧
    ['i'].length = 1 ∧
    DBCFileLoader.GetFormatRecordSize dbcFormats 8 ['i'] = some (4, -1) ∧
    ∃ r, DBCFileLoader.AutoProduceData dbcFormats 8 ['i'] 1 1073741824 = some (some r) ∧
      r.allocSize = 0 ∧ r.offset = 0 ∧ r.offset ≠ 1073741824 * 4 ∧
      (0, 4) ∈ r.writes ∧ ¬ (0 + 4 ≤ r.allocSize) := by
  have hG : DBCFileLoader.GetFormatRecordSize dbcFormats 8 ['i'] = some (4, -1) := by decide
  have hB : formatBytes dbcFormats 8 ['i'] = 4 := by decide
  have hfld : DBCFileLoader.AutoProduceData.fields dbcFormats 8 ['i'] 0 [] =
      some (4, [(0, 4)]) := by decide
  obtain ⟨nst, nw, hr, _, hfirst⟩ := AutoProduceData_records_eq dbcFormats 8 (by decide) ['i']
    (by decide) 1073741824 0 [] [] (by unfold UINT32_MOD; omega)
  rw [hB] at hr
  have hA : DBCFileLoader.AutoProduceData dbcFormats 8 ['i'] 1 1073741824 =
      some (some { allocSize := (1073741824 * 4) % UINT32_MOD
                   recordStarts := [] ++ nst
                   writes := [] ++ nw
                   offset := (0 + 1073741824 * 4) % UINT32_MOD }) := by
    unfold DBCFileLoader.AutoProduceData
    rw [if_neg (by decide), hG, hr]
  refine ⟨by decide, by decide, rfl, hG, _, hA, ?_, ?_, ?_, ?_, ?_⟩
  · norm_num [UINT32_MOD]
  · norm_num [UINT32_MOD]
  · norm_num [UINT32_MOD]
  · exact hfirst (by omega) 4 [(0, 4)] hfld (0, 4) (List.mem_singleton.mpr rfl)
  · norm_num [UINT32_MOD]

/-- C22, amended: for every format made only of loadable characters (`f`, `i`, `s`,
`d`, `n`, `b`, `x`, `X`) whose length equals the field count, and every record count
whose exact table size `recordCount * bytes(format)` is below `2 ^ 32`, one record
advances the offset of `AutoProduceData` and of `AutoProduceStrings` by
`GetFormatRecordSize(format)`; record `k` starts at `k * GetFormatRecordSize(format)`;
after all records both offsets are `recordCount * GetFormatRecordSize(format)`, the
size allocated for the data table; every field write and every string slot lies inside
the table. -/
theorem AutoProduce_offsets_agree (F : FieldFormats) (sizeof_ptr : Nat) (format : List Char)
    (fieldCount recordCount : Nat) (hF : F.labels.Nodup)
    (hfmt : ∀ c ∈ format, c ∈ F.loadable) (hlen : format.length = fieldCount)
    (hfit : recordCount * formatBytes F sizeof_ptr format < UINT32_MOD) :
    ∃ (R : Nat) (idx : Int) (r : ProducedData) (slots : List Nat),
      DBCFileLoader.GetFormatRecordSize F sizeof_ptr format = some (R, idx) ∧
      (∀ o w, o < UINT32_MOD → ∃ nw,
        DBCFileLoader.AutoProduceData.fields F sizeof_ptr format o w =
          some (u32add o R, w ++ nw)) ∧
      (∀ o s, o < UINT32_MOD → ∃ ns,
        DBCFileLoader.AutoProduceStrings.fields F sizeof_ptr format o s =
          some (u32add o R, s ++ ns)) ∧
      DBCFileLoader.AutoProduceData F sizeof_ptr format fieldCount recordCount =
        some (some r) ∧
      r.recordStarts = (List.range recordCount).map (fun k => k * R) ∧
      r.offset = recordCount * R ∧ r.allocSize = recordCount * R ∧
      (∀ p ∈ r.writes, p.1 + p.2 ≤ r.allocSize) ∧
      DBCFileLoader.AutoProduceStrings F sizeof_ptr format fieldCount recordCount =
        some (some (recordCount * R, slots)) ∧
      (∀ a ∈ slots, a + sizeof_ptr ≤ recordCount * R) := by
  have hM : (0 : Nat) < UINT32_MOD := by unfold UINT32_MOD; omega
  obtain ⟨idx, hG⟩ := GetFormatRecordSize.loop_eq F sizeof_ptr hF format 0 0 (-1) hfmt hM
  rw [Nat.zero_add] at hG
  obtain ⟨nst, nw, hr, hb, _⟩ :=
    AutoProduceData_records_eq F sizeof_ptr hF format hfmt recordCount 0 [] [] hM
  obtain ⟨ns, hs, hsb⟩ :=
    AutoProduceStrings_records_eq F sizeof_ptr hF format hfmt recordCount 0 [] hM
  have hR : recordCount * (formatBytes F sizeof_ptr format % UINT32_MOD) =
      recordCount * formatBytes F sizeof_ptr format := by
    rcases Nat.eq_zero_or_pos recordCount with h0 | hpos
    · rw [h0, Nat.zero_mul, Nat.zero_mul]
    · have hle : formatBytes F sizeof_ptr format ≤
          recordCount * formatBytes F sizeof_ptr format := Nat.le_mul_of_pos_left _ hpos
      rw [Nat.mod_eq_of_lt (lt_of_le_of_lt hle hfit)]
  have hfit0 : 0 + recordCount * formatBytes F sizeof_ptr format < UINT32_MOD := by
    rw [Nat.zero_add]; exact hfit
  obtain ⟨hst, hwb⟩ := hb hfit0
  have hsb2 := hsb hfit0
  rw [Nat.zero_add, Nat.mod_eq_of_lt hfit, List.nil_append, List.nil_append] at hr
  rw [Nat.zero_add, Nat.mod_eq_of_lt hfit, List.nil_append] at hs
  refine ⟨formatBytes F sizeof_ptr format % UINT32_MOD, idx,
    { allocSize := (recordCount * (formatBytes F sizeof_ptr format % UINT32_MOD)) % UINT32_MOD
      recordStarts := nst
      writes := nw
      offset := recordCount * formatBytes F sizeof_ptr format }, ns, hG, ?_, ?_, ?_, ?_, ?_, ?_,
    ?_, ?_, ?_⟩
  · intro o w ho
    obtain ⟨nw1, h1, _⟩ := AutoProduceData_fields_eq F sizeof_ptr hF format o w hfmt ho
    refine ⟨nw1, ?_⟩
    rw [h1]
    unfold u32add
    rw [Nat.add_mod_mod]
  · intro o s ho
    obtain ⟨ns1, h1, _⟩ := AutoProduceStrings_fields_eq F sizeof_ptr hF format o s hfmt ho
    refine ⟨ns1, ?_⟩
    rw [h1]
    unfold u32add
    rw [Nat.add_mod_mod]
  · unfold DBCFileLoader.AutoProduceData
    rw [if_neg (not_not.mpr hlen)]
    unfold DBCFileLoader.GetFormatRecordSize
    rw [hG, hr]
  · show nst = _
    rw [hst]
    apply List.map_congr_left
    intro k hk
    have hk2 : k < recordCount := List.mem_range.mp hk
    rcases Nat.eq_zero_or_pos recordCount with h0 | hpos
    · omega
    · have hle : formatBytes F sizeof_ptr format ≤
          recordCount * formatBytes F sizeof_ptr format := Nat.le_mul_of_pos_left _ hpos
      rw [Nat.mod_eq_of_lt (lt_of_le_of_lt hle hfit), Nat.zero_add]
  · show recordCount * formatBytes F sizeof_ptr format = _
    rw [hR]
  · show (recordCount * (formatBytes F sizeof_ptr format % UINT32_MOD)) % UINT32_MOD = _
    rw [hR, Nat.mod_eq_of_lt hfit]
  · intro p hp
    show p.1 + p.2 ≤ (recordCount * (formatBytes F sizeof_ptr format % UINT32_MOD)) % UINT32_MOD
    rw [hR, Nat.mod_eq_of_lt hfit]
    have := hwb p hp
    omega
  · unfold DBCFileLoader.AutoProduceStrings
    rw [if_neg (not_not.mpr hlen), hs, hR]
  · intro a ha
    rw [hR]
    have := hsb2 a ha
    omega

theorem AutoProduce_offsets_agree_witness :
    ∃ (R : Nat) (idx : Int) (r : ProducedData) (slots : List Nat),
      DBCFileLoader.GetFormatRecordSize dbcFormats 8 ['n', 's', 'b', 'x', 'f'] =
        some (R, idx) ∧
      (∀ o w, o < UINT32_MOD → ∃ nw,
        DBCFileLoader.AutoProduceData.fields dbcFormats 8 ['n', 's', 'b', 'x', 'f'] o w =
          some (u32add o R, w ++ nw)) ∧
      (∀ o s, o < UINT32_MOD → ∃ ns,
        DBCFileLoader.AutoProduceStrings.fields dbcFormats 8 ['n', 's', 'b', 'x', 'f'] o s =
          some (u32add o R, s ++ ns)) ∧
      DBCFileLoader.AutoProduceData dbcFormats 8 ['n', 's', 'b', 'x', 'f'] 5 2 =
        some (some r) ∧
      r.recordStarts = (List.range 2).map (fun k => k * R) ∧
      r.offset = 2 * R ∧ r.allocSize = 2 * R ∧
      (∀ p ∈ r.writes, p.1 + p.2 ≤ r.allocSize) ∧
      DBCFileLoader.AutoProduceStrings dbcFormats 8 ['n', 's', 'b', 'x', 'f'] 5 2 =
        some (some (2 * R, slots)) ∧
      (∀ a ∈ slots, a + 8 ≤ 2 * R) :=
  AutoProduce_offsets_agree dbcFormats 8 ['n', 's', 'b', 'x', 'f'] 5 2 (by decide) (by decide)
    rfl (by decide)

end TrinityCore
